import Mathlib

/-! ## ihate2fa: migration decoder and code generator

A shallow embedding of `internal/otp.go` and `internal/migration/migration.go`.

* Go `[]byte` is `List UInt8`, Go `string` is `String`, Go `int`/`uint64` values are `Int`/`Nat`
  with explicit wrap-around where the source converts or overflows.
* A Go call either returns or panics; `Exec` records which.  A Go `(value, error)` pair is a
  Lean pair whose second component is `Option Error` (`none` is `nil`).
* The hash constructors `sha1.New`, `sha256.New`, `sha512.New`, `md5.New` and `hmac.New` of the
  Go standard library are written out (FIPS 180-4, RFC 1321, RFC 2104) so that codes can be
  computed.
* `time.Now()` is an explicit argument of `Generate` (Unix seconds).
* `net/url`, `encoding/base64` and the protobuf runtime are the fields of `Env`; the functions
  of `migration.go` are stated over an arbitrary `Env`, and `goEnv` is a concrete one.
-/

namespace Ihate2fa

/-! ## Bytes and machine words -/

/-- Go `[]byte`. -/
abbrev Bytes := List UInt8

/-- Big-endian value of a byte string. -/
def beWord : Bytes → Nat
  | [] => 0
  | b :: bs => b.toNat * 256 ^ bs.length + beWord bs

/-- Little-endian value of a byte string. -/
def leWord : Bytes → Nat
  | [] => 0
  | b :: bs => b.toNat + 256 * leWord bs

/-- The `n` low-order bytes of `x`, most significant first. -/
def beBytes : Nat → Nat → Bytes
  | 0, _ => []
  | n + 1, x => UInt8.ofNat (x / 256 ^ n) :: beBytes n x

/-- The `n` low-order bytes of `x`, least significant first. -/
def leBytes : Nat → Nat → Bytes
  | 0, _ => []
  | n + 1, x => UInt8.ofNat x :: leBytes n (x / 256)

/-- Addition of `w`-bit words. -/
def addw (w a b : Nat) : Nat := (a + b) % 2 ^ w

/-- Left rotation of a `w`-bit word. -/
def rotl (w x n : Nat) : Nat := ((x <<< n) % 2 ^ w) ||| (x >>> (w - n))

/-- Right rotation of a `w`-bit word. -/
def rotr (w x n : Nat) : Nat := (x >>> n) ||| ((x <<< (w - n)) % 2 ^ w)

/-- Bitwise complement of a `w`-bit word. -/
def notw (w x : Nat) : Nat := x ^^^ (2 ^ w - 1)

/-- The first `n` consecutive blocks of `size` bytes. -/
def blocksOf (size : Nat) : Nat → Bytes → List Bytes
  | 0, _ => []
  | n + 1, bs => bs.take size :: blocksOf size n (bs.drop size)

/-- The words of a block: `count` groups of `width` bytes read with `rd`. -/
def blockWords (rd : Bytes → Nat) (width count : Nat) (blk : Bytes) : List Nat :=
  (List.range count).map fun i => rd ((blk.drop (width * i)).take width)

/-- Merkle-Damgard padding: a `0x80` byte, then zeros up to `lenBytes` short of a multiple of
`block`. -/
def mdPad (block lenBytes len : Nat) : Bytes :=
  128 :: List.replicate ((2 * block - 1 - lenBytes - len % block) % block) 0

/-! ## `crypto/sha1` -/

/-- Round function of SHA-1. -/
def sha1F (t b c d : Nat) : Nat :=
  if t < 20 then (b &&& c) ||| (notw 32 b &&& d)
  else if t < 40 then b ^^^ c ^^^ d
  else if t < 60 then (b &&& c) ||| (b &&& d) ||| (c &&& d)
  else b ^^^ c ^^^ d

/-- Round constant of SHA-1. -/
def sha1K (t : Nat) : Nat :=
  if t < 20 then 0x5A827999
  else if t < 40 then 0x6ED9EBA1
  else if t < 60 then 0x8F1BBCDC
  else 0xCA62C1D6

/-- Runs `n` rounds of SHA-1 from round `t`; `w` holds the sixteen schedule words `W[t..t+15]` and
`s` is the working state `[a, b, c, d, e]`. -/
def sha1Rounds : Nat → Nat → List Nat → List Nat → List Nat
  | 0, _, _, s => s
  | n + 1, t, w, [a, b, c, d, e] =>
    let wt := w.getD 0 0
    let next := rotl 32 (w.getD 13 0 ^^^ w.getD 8 0 ^^^ w.getD 2 0 ^^^ wt) 1
    let tmp := addw 32 (addw 32 (addw 32 (addw 32 (rotl 32 a 5) (sha1F t b c d)) e) wt) (sha1K t)
    sha1Rounds n (t + 1) (w.drop 1 ++ [next]) [tmp, a, rotl 32 b 30, c, d]
  | _ + 1, _, _, s => s

/-- SHA-1 compression of one 64-byte block. -/
def sha1Block (s : List Nat) (blk : Bytes) : List Nat :=
  List.zipWith (addw 32) s (sha1Rounds 80 0 (blockWords beWord 4 16 blk) s)

/-- SHA-1 digest (20 bytes) of a message. -/
def sha1Sum (msg : Bytes) : Bytes :=
  let p := msg ++ mdPad 64 8 msg.length ++ beBytes 8 (msg.length * 8 % 2 ^ 64)
  ((blocksOf 64 (p.length / 64) p).foldl sha1Block
    [0x67452301, 0xEFCDAB89, 0x98BADCFE, 0x10325476, 0xC3D2E1F0]).flatMap (beBytes 4)

/-! ## `crypto/md5` -/

/-- Sine table of MD5. -/
def md5K : List Nat :=
  [0xd76aa478, 0xe8c7b756, 0x242070db, 0xc1bdceee, 0xf57c0faf, 0x4787c62a,
   0xa8304613, 0xfd469501, 0x698098d8, 0x8b44f7af, 0xffff5bb1, 0x895cd7be,
   0x6b901122, 0xfd987193, 0xa679438e, 0x49b40821, 0xf61e2562, 0xc040b340,
   0x265e5a51, 0xe9b6c7aa, 0xd62f105d, 0x02441453, 0xd8a1e681, 0xe7d3fbc8,
   0x21e1cde6, 0xc33707d6, 0xf4d50d87, 0x455a14ed, 0xa9e3e905, 0xfcefa3f8,
   0x676f02d9, 0x8d2a4c8a, 0xfffa3942, 0x8771f681, 0x6d9d6122, 0xfde5380c,
   0xa4beea44, 0x4bdecfa9, 0xf6bb4b60, 0xbebfbc70, 0x289b7ec6, 0xeaa127fa,
   0xd4ef3085, 0x04881d05, 0xd9d4d039, 0xe6db99e5, 0x1fa27cf8, 0xc4ac5665,
   0xf4292244, 0x432aff97, 0xab9423a7, 0xfc93a039, 0x655b59c3, 0x8f0ccc92,
   0xffeff47d, 0x85845dd1, 0x6fa87e4f, 0xfe2ce6e0, 0xa3014314, 0x4e0811a1,
   0xf7537e82, 0xbd3af235, 0x2ad7d2bb, 0xeb86d391]

/-- Rotation amounts of MD5, four per group of sixteen rounds. -/
def md5S : List Nat := [7, 12, 17, 22, 5, 9, 14, 20, 4, 11, 16, 23, 6, 10, 15, 21]

/-- Round function of MD5. -/
def md5F (i b c d : Nat) : Nat :=
  if i < 16 then (b &&& c) ||| (notw 32 b &&& d)
  else if i < 32 then (d &&& b) ||| (notw 32 d &&& c)
  else if i < 48 then b ^^^ c ^^^ d
  else c ^^^ (b ||| notw 32 d)

/-- Index of the message word used in round `i` of MD5. -/
def md5G (i : Nat) : Nat :=
  if i < 16 then i
  else if i < 32 then (5 * i + 1) % 16
  else if i < 48 then (3 * i + 5) % 16
  else (7 * i) % 16

/-- Runs `n` rounds of MD5 from round `i` over the message words `m` and state `[a, b, c, d]`. -/
def md5Rounds : Nat → Nat → List Nat → List Nat → List Nat
  | 0, _, _, s => s
  | n + 1, i, m, [a, b, c, d] =>
    let f := addw 32 (addw 32 (addw 32 a (md5F i b c d)) (md5K.getD i 0)) (m.getD (md5G i) 0)
    md5Rounds n (i + 1) m [d, addw 32 b (rotl 32 f (md5S.getD (4 * (i / 16) + i % 4) 0)), b, c]
  | _ + 1, _, _, s => s

/-- MD5 compression of one 64-byte block. -/
def md5Block (s : List Nat) (blk : Bytes) : List Nat :=
  List.zipWith (addw 32) s (md5Rounds 64 0 (blockWords leWord 4 16 blk) s)

/-- MD5 digest (16 bytes) of a message. -/
def md5Sum (msg : Bytes) : Bytes :=
  let p := msg ++ mdPad 64 8 msg.length ++ leBytes 8 (msg.length * 8 % 2 ^ 64)
  ((blocksOf 64 (p.length / 64) p).foldl md5Block
    [0x67452301, 0xefcdab89, 0x98badcfe, 0x10325476]).flatMap (leBytes 4)

/-! ## `crypto/sha256` and `crypto/sha512` -/

/-- Whether `n` is prime, by trial division. -/
def isPrime (n : Nat) : Bool := 2 ≤ n && (List.range n).all fun d => d < 2 || n % d != 0

/-- The first eighty primes, `2` to `409`. -/
def firstPrimes : List Nat := (List.range 410).filter isPrime

/-- Bisection for an integer root: with `r ^ k ≤ n`, the largest `r + j` with `j < 2 ^ bits`
and `(r + j) ^ k ≤ n`. -/
def iroot (k n : Nat) : Nat → Nat → Nat
  | 0, r => r
  | bits + 1, r => if (r + 2 ^ bits) ^ k ≤ n then iroot k n bits (r + 2 ^ bits) else iroot k n bits r

/-- The first `w` bits of the fractional part of the `k`-th root of `p`, for `p < 2 ^ 16`. -/
def fracRoot (k w p : Nat) : Nat := iroot k (p * 2 ^ (k * w)) (w + 16) 0 % 2 ^ w

/-- Round constants of SHA-2 over `w`-bit words (FIPS 180-4, 4.2.2 and 4.2.3): the fractional
parts of the cube roots of the first `count` primes. -/
def sha2K (w count : Nat) : List Nat := (firstPrimes.take count).map (fracRoot 3 w)

/-- Initial hash value of SHA-2 over `w`-bit words (FIPS 180-4, 5.3.3 and 5.3.5): the
fractional parts of the square roots of the first eight primes. -/
def sha2Init (w : Nat) : List Nat := (firstPrimes.take 8).map (fracRoot 2 w)

/-- The rotation and shift amounts that tell SHA-256 (`w = 32`) from SHA-512 (`w = 64`):
`[S0a, S0b, S0c, S1a, S1b, S1c, s0a, s0b, s0shift, s1a, s1b, s1shift]`. -/
def sha2Amounts (w : Nat) : List Nat :=
  if w = 32 then [2, 13, 22, 6, 11, 25, 7, 18, 3, 17, 19, 10]
  else [28, 34, 39, 14, 18, 41, 1, 8, 7, 19, 61, 6]

/-- Big sigma of SHA-2: three right rotations by the amounts at `k`, `k+1`, `k+2`. -/
def sha2BigSigma (w k x : Nat) : Nat :=
  rotr w x ((sha2Amounts w).getD k 0) ^^^ rotr w x ((sha2Amounts w).getD (k + 1) 0) ^^^
    rotr w x ((sha2Amounts w).getD (k + 2) 0)

/-- Small sigma of SHA-2: two right rotations and a right shift. -/
def sha2SmallSigma (w k x : Nat) : Nat :=
  rotr w x ((sha2Amounts w).getD k 0) ^^^ rotr w x ((sha2Amounts w).getD (k + 1) 0) ^^^
    (x >>> ((sha2Amounts w).getD (k + 2) 0))

/-- Runs `n` rounds of SHA-2 over `w`-bit words from round `t`; `ws` holds the sixteen schedule
words `W[t..t+15]`, `ks` the remaining round constants and `s` the state `[a, .., h]`. -/
def sha2Rounds (w : Nat) : Nat → List Nat → List Nat → List Nat → List Nat
  | 0, _, _, s => s
  | n + 1, ws, k :: ks, [a, b, c, d, e, f, g, h] =>
    let wt := ws.getD 0 0
    let next := addw w (addw w (addw w (sha2SmallSigma w 9 (ws.getD 14 0)) (ws.getD 9 0))
      (sha2SmallSigma w 6 (ws.getD 1 0))) wt
    let t1 := addw w (addw w (addw w (addw w h (sha2BigSigma w 3 e))
      ((e &&& f) ^^^ (notw w e &&& g))) k) wt
    let t2 := addw w (sha2BigSigma w 0 a) ((a &&& b) ^^^ (a &&& c) ^^^ (b &&& c))
    sha2Rounds w n (ws.drop 1 ++ [next]) ks [addw w t1 t2, a, b, c, addw w d t1, e, f, g]
  | _ + 1, _, _, s => s

/-- SHA-256 compression of one 64-byte block. -/
def sha256Block (s : List Nat) (blk : Bytes) : List Nat :=
  List.zipWith (addw 32) s (sha2Rounds 32 64 (blockWords beWord 4 16 blk) (sha2K 32 64) s)

/-- SHA-256 digest (32 bytes) of a message. -/
def sha256Sum (msg : Bytes) : Bytes :=
  let p := msg ++ mdPad 64 8 msg.length ++ beBytes 8 (msg.length * 8 % 2 ^ 64)
  ((blocksOf 64 (p.length / 64) p).foldl sha256Block (sha2Init 32)).flatMap (beBytes 4)

/-- SHA-512 compression of one 128-byte block. -/
def sha512Block (s : List Nat) (blk : Bytes) : List Nat :=
  List.zipWith (addw 64) s (sha2Rounds 64 80 (blockWords beWord 8 16 blk) (sha2K 64 80) s)

/-- SHA-512 digest (64 bytes) of a message. -/
def sha512Sum (msg : Bytes) : Bytes :=
  let p := msg ++ mdPad 128 16 msg.length ++ beBytes 16 (msg.length % 2 ^ 64 * 8)
  ((blocksOf 128 (p.length / 128) p).foldl sha512Block (sha2Init 64)).flatMap (beBytes 8)

/-! ## `hash.Hash` and `crypto/hmac` -/

/-- A Go `hash.Hash` as seen by its user: `Size()`, `BlockSize()`, and the digest `Sum(nil)`
of everything written so far. -/
structure Hash where
  Size : Nat
  BlockSize : Nat
  Sum : Bytes → Bytes

/-- Go `sha1.New`. -/
def sha1New : Hash := ⟨20, 64, sha1Sum⟩

/-- Go `sha256.New`. -/
def sha256New : Hash := ⟨32, 64, sha256Sum⟩

/-- Go `sha512.New`. -/
def sha512New : Hash := ⟨64, 128, sha512Sum⟩

/-- Go `md5.New`. -/
def md5New : Hash := ⟨16, 64, md5Sum⟩

/-- The key block of `hmac.New`: a key longer than a block is hashed first, then the key is
copied into a zeroed block (`copy` stops at the block size). -/
def hmacKeyBlock (h : Hash) (key : Bytes) : Bytes :=
  let k := if key.length > h.BlockSize then h.Sum key else key
  (k ++ List.replicate (h.BlockSize - k.length) 0).take h.BlockSize

/-- Go `hmac.New(h, key)`: a `hash.Hash` whose `Sum` is the RFC 2104 message authentication
code of what was written. -/
def hmacNew (h : Hash) (key : Bytes) : Hash :=
  { Size := h.Size
    BlockSize := h.BlockSize
    Sum := fun msg =>
      h.Sum ((hmacKeyBlock h key).map (· ^^^ 0x5c) ++
        h.Sum ((hmacKeyBlock h key).map (· ^^^ 0x36) ++ msg)) }

/-! ## Results of Go calls -/

/-- A Go `error` value built by this program or handed over by a library. -/
inductive Error where
  /-- Go `fmt.Errorf(msg)` with a constant message, or a library error with that text. -/
  | text (msg : String)
  /-- Go `fmt.Errorf(msg + ": %w", cause)`. -/
  | wrap (msg : String) (cause : Error)
  /-- Go `fmt.Errorf("unknown scheme %q, should be %q", got, want)`. -/
  | unknownScheme (got want : String)
  /-- Go `fmt.Errorf("unknown host %q", got)`. -/
  | unknownHost (got : String)
deriving DecidableEq, Repr

deriving instance DecidableEq for Except

/-- How a Go call ends: it returns, it panics, or (for a float-to-int conversion the Go
specification leaves implementation-dependent) its result is not fixed by the language. -/
inductive Exec (α : Type) where
  | ret (a : α)
  | panic (msg : String)
  | implDependent
deriving DecidableEq, Repr

/-- Sequencing of Go calls: a panic or an unfixed result ends the caller as well. -/
def Exec.bind {α β : Type} (x : Exec α) (f : α → Exec β) : Exec β :=
  match x with
  | .ret a => f a
  | .panic m => .panic m
  | .implDependent => .implDependent

/-! ## `internal/otp.go` -/

namespace Internal

/-- Go `OtpParameterType`. -/
structure OtpParameterType where
  IsTotp : Bool
  IsHotp : Bool
deriving DecidableEq, Repr

/-- Go `OtpParameterData`.  `Algorithm` is a non-nil hash constructor, `Digits` a Go `int`,
`Counter` a `uint64`; the Go field `Type` is `Typ` here. -/
structure OtpParameterData where
  Secret : Bytes
  Name : String
  Issuer : String
  Algorithm : Hash
  AlgorithmName : String
  Digits : Int
  Typ : OtpParameterType
  Counter : Nat

/-- Go constant `offset = 5 * time.Second`, in seconds. -/
def offset : Int := 5

/-- Go constant `period = 30 * time.Second`, in seconds. -/
def period : Int := 30

/-- Go constant `codeFailed`. -/
def codeFailed : String := "failed"

/-- Go `uint64(x)` of an `int64`: the value modulo `2 ^ 64`. -/
def toUint64 (x : Int) : Nat := (x % 2 ^ 64).toNat

/-- Go `int(math.Pow10(d))` with a 64-bit `int`: `Pow10` of a negative exponent is below one
and converts to `0`, powers up to `10 ^ 18` are exact, and a larger power does not fit an
`int`, where the result of the conversion is implementation-dependent (`none`). -/
def pow10Int (d : Int) : Option Int :=
  if d < 0 then some 0 else if d ≤ 18 then some (10 ^ d.toNat) else none

/-- The decimal digits of `u` as `fmt` writes them, from the right, in front of `acc`; `fuel`
bounds the number of digits. -/
def fmtDigits : Nat → Nat → List Char → List Char
  | 0, _, acc => acc
  | fuel + 1, u, acc =>
    if 10 ≤ u then fmtDigits fuel (u / 10) (Char.ofNat (48 + u % 10) :: acc)
    else Char.ofNat (48 + u) :: acc

/-- Go `fmt.Sprintf("%0*d", width, v)` for `0 ≤ width` and `0 ≤ v < 2 ^ 64`: the digits of `v`
with zeros in front up to `width` characters. -/
def sprintfZeroPad (width v : Nat) : String :=
  ⟨List.replicate (width - (fmtDigits 20 v []).length) '0' ++ fmtDigits 20 v []⟩

/-- The closure `count` of `Generate`; `unixNow` is `time.Now().Unix()`. -/
def OtpParameterData.count (op : OtpParameterData) (unixNow : Int) : Exec Nat :=
  if op.Typ.IsHotp then .ret ((op.Counter + 1) % 2 ^ 64)
  else if op.Typ.IsTotp then .ret (toUint64 (unixNow + offset) / toUint64 period)
  else .panic "unknown otp type"

/-- Go `OtpParameterData.Generate`, with the clock reading `unixNow = time.Now().Unix()` as an
argument.  The result is the pair `(code, err)`. -/
def OtpParameterData.Generate (op : OtpParameterData) (unixNow : Int) :
    Exec (String × Option Error) :=
  if !op.Typ.IsTotp then .ret (codeFailed, some (.text "only totp is supported"))
  else
    (op.count unixNow).bind fun cnt =>
    let h := hmacNew op.Algorithm op.Secret
    let hashed := h.Sum (beBytes 8 cnt)
    if h.Size = 0 ∨ hashed.length ≤ h.Size - 1 then .panic "index out of range"
    else
      let off := (hashed.getD (h.Size - 1) 0).toNat &&& 15
      if hashed.length < off then .panic "slice bounds out of range"
      else if hashed.length - off < 4 then .panic "index out of range"
      else
        let result := beWord ((hashed.drop off).take 4) &&& (2 ^ 31 - 1)
        match pow10Int op.Digits with
        | none => .implDependent
        | some m =>
          if m = 0 then .panic "integer divide by zero"
          else .ret (sprintfZeroPad op.Digits.toNat (result % m.toNat), none)

end Internal

/-- Go interface `OtpParameter`: the values of its methods `Data()` and `Bytes()`. -/
structure Internal.OtpParameter where
  Data : Internal.OtpParameterData
  Bytes : Bytes

/-- Go `internal.Payload`; the batch fields are `int32`. -/
structure Internal.Payload where
  OtpParameters : List Internal.OtpParameter
  Version : Int
  BatchSize : Int
  BatchIndex : Int
  BatchId : Int

/-! ## `internal/migration/migration.go` -/

namespace Migration

/-- Modelled from the spec: the message struct `Payload_OtpParameters` of the generated file
`migration.pb.go`, which is not among the sources; fields as listed in section 6 of the
specification, enum fields holding their `int32` code.  `unknownFields` keeps the bytes of
fields the message does not declare, as the protobuf runtime does; the Go field `Type` is
`Typ` here. -/
structure Payload_OtpParameters where
  Secret : Bytes
  Name : String
  Issuer : String
  Algorithm : Int
  Digits : Int
  Typ : Int
  Counter : Nat
  unknownFields : Bytes
deriving DecidableEq, Repr

/-- Modelled from the spec: the message struct `Payload` of the generated file
`migration.pb.go`, which is not among the sources; fields as listed in section 6. -/
structure Payload where
  OtpParameters : List Payload_OtpParameters
  Version : Int
  BatchSize : Int
  BatchIndex : Int
  BatchId : Int
  unknownFields : Bytes
deriving DecidableEq, Repr

/-- Modelled from the spec: enum constants of `migration.pb.go` (section 6: algorithm
`0=unspecified, 1=SHA1, 2=SHA256, 3=SHA512, 4=MD5`). -/
def Payload_OtpParameters_ALGORITHM_UNSPECIFIED : Int := 0

/-- Modelled from the spec: enum constant of `migration.pb.go`, algorithm code 1. -/
def Payload_OtpParameters_ALGORITHM_SHA1 : Int := 1

/-- Modelled from the spec: enum constant of `migration.pb.go`, algorithm code 2. -/
def Payload_OtpParameters_ALGORITHM_SHA256 : Int := 2

/-- Modelled from the spec: enum constant of `migration.pb.go`, algorithm code 3. -/
def Payload_OtpParameters_ALGORITHM_SHA512 : Int := 3

/-- Modelled from the spec: enum constant of `migration.pb.go`, algorithm code 4. -/
def Payload_OtpParameters_ALGORITHM_MD5 : Int := 4

/-- Modelled from the spec: enum constant of `migration.pb.go` (section 6: digits
`0=unspecified, 1=6, 2=8`). -/
def Payload_OtpParameters_DIGIT_COUNT_UNSPECIFIED : Int := 0

/-- Modelled from the spec: enum constant of `migration.pb.go`, digit-count code 1. -/
def Payload_OtpParameters_DIGIT_COUNT_SIX : Int := 1

/-- Modelled from the spec: enum constant of `migration.pb.go`, digit-count code 2. -/
def Payload_OtpParameters_DIGIT_COUNT_EIGHT : Int := 2

/-- Modelled from the spec: enum constant of `migration.pb.go` (section 6: type
`0=unspecified, 1=HOTP, 2=TOTP`). -/
def Payload_OtpParameters_OTP_TYPE_UNSPECIFIED : Int := 0

/-- Modelled from the spec: enum constant of `migration.pb.go`, type code 1. -/
def Payload_OtpParameters_OTP_TYPE_HOTP : Int := 1

/-- Modelled from the spec: enum constant of `migration.pb.go`, type code 2. -/
def Payload_OtpParameters_OTP_TYPE_TOTP : Int := 2

/-- Modelled from the spec: the `String()` method of the enum types of `migration.pb.go` (not
among the sources), at a code outside the declared constants, where the protobuf runtime
prints the number; it only supplies the text of a panic. -/
def enumString (code : Int) : String := toString code

/-- The fields of a Go `*url.URL` that `extractData` reads. -/
structure URL where
  Scheme : String
  Host : String
  RawQuery : String
deriving DecidableEq, Repr

/-- The library calls of `migration.go`: `url.Parse`, `u.Query().Get(key)`,
`base64.StdEncoding.DecodeString` (which returns the bytes decoded so far together with its
error), and `proto.Unmarshal` / `proto.Marshal` at the two message types. -/
structure Env where
  urlParse : String → Except Error URL
  queryGet : URL → String → String
  base64Decode : String → Bytes × Option Error
  unmarshalPayload : Bytes → Except Error Payload
  unmarshalOtp : Bytes → Except Error Payload_OtpParameters
  marshalOtp : Payload_OtpParameters → Except Error Bytes

/-- Go `hashByAlgorithm`. -/
def hashByAlgorithm (algo : Int) : Exec Hash :=
  if algo = Payload_OtpParameters_ALGORITHM_UNSPECIFIED then .ret sha1New
  else if algo = Payload_OtpParameters_ALGORITHM_SHA1 then .ret sha1New
  else if algo = Payload_OtpParameters_ALGORITHM_SHA256 then .ret sha256New
  else if algo = Payload_OtpParameters_ALGORITHM_SHA512 then .ret sha512New
  else if algo = Payload_OtpParameters_ALGORITHM_MD5 then .ret md5New
  else .panic ("unknown algorithm: " ++ enumString algo)

/-- Go `nameByAlgorithm`. -/
def nameByAlgorithm (algo : Int) : Exec String :=
  if algo = Payload_OtpParameters_ALGORITHM_UNSPECIFIED then .ret "SHA1"
  else if algo = Payload_OtpParameters_ALGORITHM_SHA1 then .ret "SHA1"
  else if algo = Payload_OtpParameters_ALGORITHM_SHA256 then .ret "SHA256"
  else if algo = Payload_OtpParameters_ALGORITHM_SHA512 then .ret "SHA512"
  else if algo = Payload_OtpParameters_ALGORITHM_MD5 then .ret "MD5"
  else .panic ("unknown algorithm: " ++ enumString algo)

/-- Go `countDigits`. -/
def countDigits (digits : Int) : Exec Int :=
  if digits = Payload_OtpParameters_DIGIT_COUNT_UNSPECIFIED then .ret 6
  else if digits = Payload_OtpParameters_DIGIT_COUNT_SIX then .ret 6
  else if digits = Payload_OtpParameters_DIGIT_COUNT_EIGHT then .ret 8
  else .panic ("unknown digits: " ++ enumString digits)

/-- Go `Parser.FromProtoBytes`.  Its two results `(nil, err)` and `(param, nil)` are
`.error err` and `.ok param`. -/
def Parser.FromProtoBytes (env : Env) (bytes : Bytes) :
    Exec (Except Error Internal.OtpParameter) :=
  match env.unmarshalOtp bytes with
  | .error _ => .ret (.error (.text "failed to unmarshal otp parameter"))
  | .ok op =>
    (hashByAlgorithm op.Algorithm).bind fun algorithm =>
    (nameByAlgorithm op.Algorithm).bind fun algorithmName =>
    (countDigits op.Digits).bind fun digits =>
    .ret (.ok
      ⟨⟨op.Secret, op.Name, op.Issuer, algorithm, algorithmName, digits,
          ⟨false || op.Typ = Payload_OtpParameters_OTP_TYPE_TOTP ||
              op.Typ = Payload_OtpParameters_OTP_TYPE_UNSPECIFIED,
            false || op.Typ = Payload_OtpParameters_OTP_TYPE_HOTP⟩,
          op.Counter⟩,
        bytes⟩)

/-- Go `Parser.extractData`: the pair `(data, err)`. -/
def Parser.extractData (env : Env) (link : String) : Bytes × Option Error :=
  match env.urlParse link with
  | .error err => ([], some err)
  | .ok u =>
    if u.Scheme ≠ "otpauth-migration" then
      ([], some (.unknownScheme u.Scheme "otpauth-migration"))
    else if u.Host ≠ "offline" then ([], some (.unknownHost u.Host))
    else
      let data := env.queryGet u "data"
      let data : String := ⟨data.data.map fun c => if c = ' ' then '+' else c⟩
      env.base64Decode data

/-- The loop of `Parser.Parse` over the decoded records: each is marshalled and handed to
`FromProtoBytes`; `params` holds the parameters appended so far. -/
def Parser.parseParams (env : Env) :
    List Payload_OtpParameters → List Internal.OtpParameter →
      Exec (Except Error (List Internal.OtpParameter))
  | [], params => .ret (.ok params)
  | op :: rest, params =>
    match env.marshalOtp op with
    | .error err => .ret (.error (.wrap "failed to marshal otp parameter" err))
    | .ok bytes =>
      (Parser.FromProtoBytes env bytes).bind fun r =>
        match r with
        | .error err => .ret (.error (.wrap "failed to unmarshal otp parameter" err))
        | .ok param => Parser.parseParams env rest (params ++ [param])

/-- Go `internal.Payload{}`. -/
def emptyPayload : Internal.Payload := ⟨[], 0, 0, 0, 0⟩

/-- Go `Parser.Parse`: the pair `(payload, err)`. -/
def Parser.Parse (env : Env) (link : String) : Exec (Internal.Payload × Option Error) :=
  match Parser.extractData env link with
  | (_, some err) => .ret (emptyPayload, some (.wrap "failed to extract data from link" err))
  | (data, none) =>
    match env.unmarshalPayload data with
    | .error err =>
      .ret (emptyPayload, some (.wrap "failed to unmarshal data from link" err))
    | .ok pp =>
      (Parser.parseParams env pp.OtpParameters []).bind fun r =>
        match r with
        | .error err => .ret (emptyPayload, some err)
        | .ok params =>
          .ret (⟨params, pp.Version, pp.BatchSize, pp.BatchIndex, pp.BatchId⟩, none)

end Migration

/-! ## A reference environment

Executable readings of the library calls, used to run the decoder on concrete links and
records.  Text is handled as Unicode strings, so a link is a valid UTF-8 string. -/

namespace Lib

open Migration

/-- UTF-8 encoding of one character. -/
def charBytes (c : Char) : Bytes :=
  let n := c.toNat
  if n < 0x80 then [UInt8.ofNat n]
  else if n < 0x800 then [UInt8.ofNat (0xC0 + n / 64), UInt8.ofNat (0x80 + n % 64)]
  else if n < 0x10000 then
    [UInt8.ofNat (0xE0 + n / 4096), UInt8.ofNat (0x80 + n / 64 % 64), UInt8.ofNat (0x80 + n % 64)]
  else
    [UInt8.ofNat (0xF0 + n / 262144), UInt8.ofNat (0x80 + n / 4096 % 64),
      UInt8.ofNat (0x80 + n / 64 % 64), UInt8.ofNat (0x80 + n % 64)]

/-- Go `[]byte(s)`: the UTF-8 bytes of a string. -/
def stringBytes (s : String) : Bytes := s.data.flatMap charBytes

/-- Whether `b` is a UTF-8 continuation byte in the range `lo..hi`. -/
def contIn (lo hi : Nat) (b : UInt8) : Bool := lo ≤ b.toNat && b.toNat ≤ hi

/-- Go `utf8.DecodeRune` restricted to valid encodings: the first character of `bs` and the
remaining bytes, or `none` when `bs` does not start with a valid encoding. -/
def decodeRune : Bytes → Option (Char × Bytes)
  | [] => none
  | b0 :: rest =>
    let n0 := b0.toNat
    if n0 < 0x80 then some (Char.ofNat n0, rest)
    else if 0xC2 ≤ n0 ∧ n0 ≤ 0xDF then
      match rest with
      | b1 :: rest =>
        if contIn 0x80 0xBF b1 then some (Char.ofNat ((n0 - 0xC0) * 64 + (b1.toNat - 0x80)), rest)
        else none
      | _ => none
    else if 0xE0 ≤ n0 ∧ n0 ≤ 0xEF then
      match rest with
      | b1 :: b2 :: rest =>
        if contIn (if n0 = 0xE0 then 0xA0 else 0x80) (if n0 = 0xED then 0x9F else 0xBF) b1
            && contIn 0x80 0xBF b2 then
          some (Char.ofNat ((n0 - 0xE0) * 4096 + (b1.toNat - 0x80) * 64 + (b2.toNat - 0x80)), rest)
        else none
      | _ => none
    else if 0xF0 ≤ n0 ∧ n0 ≤ 0xF4 then
      match rest with
      | b1 :: b2 :: b3 :: rest =>
        if contIn (if n0 = 0xF0 then 0x90 else 0x80) (if n0 = 0xF4 then 0x8F else 0xBF) b1
            && contIn 0x80 0xBF b2 && contIn 0x80 0xBF b3 then
          some (Char.ofNat ((n0 - 0xF0) * 262144 + (b1.toNat - 0x80) * 4096 +
            (b2.toNat - 0x80) * 64 + (b3.toNat - 0x80)), rest)
        else none
      | _ => none
    else none

/-- The characters of a valid UTF-8 byte string (`none` when `utf8.Valid` is false); `fuel`
bounds the number of characters. -/
def utf8Decode : Nat → Bytes → Option (List Char)
  | 0, bs => if bs = [] then some [] else none
  | fuel + 1, bs =>
    if bs = [] then some []
    else
      match decodeRune bs with
      | none => none
      | some (c, rest) => (utf8Decode fuel rest).map (c :: ·)

/-- Go `string(bytes)` read as text: invalid bytes show as U+FFFD, one per byte. -/
def utf8Lossy : Nat → Bytes → List Char
  | 0, _ => []
  | fuel + 1, bs =>
    match bs with
    | [] => []
    | _ :: tail =>
      match decodeRune bs with
      | none => Char.ofNat 0xFFFD :: utf8Lossy fuel tail
      | some (c, rest) => c :: utf8Lossy fuel rest

/-- Go `strings.Cut(s, sep)` for a one-character separator: the text before the first `sep`,
the text after it, and whether `sep` occurs. -/
def cut (sep : Char) : List Char → List Char × List Char × Bool
  | [] => ([], [], false)
  | c :: cs =>
    if c = sep then ([], cs, true)
    else
      let r := cut sep cs
      (c :: r.1, r.2.1, r.2.2)

/-- Value of a hexadecimal digit (`ishex` / `unhex` of `net/url`). -/
def unhex (c : Char) : Option Nat :=
  if '0' ≤ c ∧ c ≤ '9' then some (c.toNat - 48)
  else if 'a' ≤ c ∧ c ≤ 'f' then some (c.toNat - 87)
  else if 'A' ≤ c ∧ c ≤ 'F' then some (c.toNat - 55)
  else none

/-- Whether every `%` is followed by two hexadecimal digits. -/
def validEscapes : List Char → Bool
  | [] => true
  | '%' :: a :: b :: rest => (unhex a).isSome && (unhex b).isSome && validEscapes rest
  | '%' :: _ => false
  | _ :: rest => validEscapes rest

/-! ### `net/url` -/

/-- Whether `c` is an ASCII control character (`stringContainsCTLByte` of `net/url`). -/
def isCTL (c : Char) : Bool := c.toNat < 0x20 || c.toNat = 0x7f

/-- Whether `c` is an ASCII letter. -/
def isLetter (c : Char) : Bool := ('a' ≤ c && c ≤ 'z') || ('A' ≤ c && c ≤ 'Z')

/-- Go `getScheme` of `net/url` from position `i`: the position of the colon that ends the
scheme, `some none` when the link has no scheme, `none` for a link that starts with a
colon. -/
def schemeEnd : Nat → List Char → Option (Option Nat)
  | _, [] => some none
  | i, c :: cs =>
    if isLetter c then schemeEnd (i + 1) cs
    else if ('0' ≤ c && c ≤ '9') || c = '+' || c = '-' || c = '.' then
      if i = 0 then some none else schemeEnd (i + 1) cs
    else if c = ':' then
      if i = 0 then none else some (some i)
    else some none

/-- ASCII lower case of a letter. -/
def lowerChar (c : Char) : Char := if 'A' ≤ c ∧ c ≤ 'Z' then Char.ofNat (c.toNat + 32) else c

/-- Position of the last `sep` in a text. -/
def lastIndex (sep : Char) (s : List Char) : Option Nat :=
  (List.range s.length).foldl (fun r i => if s.getD i sep = sep then some i else r) none

/-- Characters `net/url` accepts unescaped in a host: letters, digits, the marks
`-_.~!$&()*+,;=:[]<>`, both quotes, and everything outside ASCII. -/
def hostCharOk (c : Char) : Bool :=
  0x80 ≤ c.toNat || isLetter c || ('0' ≤ c && c ≤ '9') ||
    [33, 34, 36, 38, 39, 40, 41, 42, 43, 44, 45, 46, 58, 59, 60, 61, 62, 91, 93, 95,
      126].contains c.toNat

/-- Characters `validUserinfo` of `net/url` accepts: letters, digits and the marks
`-._:~!$&()*+,;=%@` with the apostrophe. -/
def userinfoCharOk (c : Char) : Bool :=
  isLetter c || ('0' ≤ c && c ≤ '9') ||
    [33, 36, 37, 38, 39, 40, 41, 42, 43, 44, 45, 46, 58, 59, 61, 64, 95, 126].contains c.toNat

/-- Go `parseAuthority` of `net/url`: the host is what follows the last `@`, with an optional
port, and user information in front of it must be well formed.  Hosts that are an IP literal
in brackets or contain an escape are not covered and are reported as errors. -/
def parseAuthority (authority : List Char) : Except Error String :=
  let host := match lastIndex '@' authority with
    | none => authority
    | some i => authority.drop (i + 1)
  let userinfo := match lastIndex '@' authority with
    | none => []
    | some i => authority.take i
  if host.contains '%' || host.head? = some '[' then
    .error (.text "host with IP literal or escape")
  else if (match lastIndex ':' host with
      | none => false
      | some i => !(host.drop (i + 1)).all fun c => '0' ≤ c && c ≤ '9') then
    .error (.text "invalid port after host")
  else if !host.all hostCharOk then .error (.text "invalid character in host name")
  else if !userinfo.all userinfoCharOk then .error (.text "net/url: invalid userinfo")
  else if !validEscapes userinfo then .error (.text "invalid URL escape")
  else .ok ⟨host⟩

/-- Go `url.Parse`, as far as `Scheme`, `Host` and `RawQuery` go. -/
def urlParse (link : String) : Except Error URL :=
  let (u, frag, _) := cut '#' link.data
  if u.any isCTL then .error (.text "net/url: invalid control character in URL")
  else if u = ['*'] then
    if validEscapes frag then .ok ⟨"", "", ""⟩ else .error (.text "invalid URL escape")
  else
    match schemeEnd 0 u with
    | none => .error (.text "missing protocol scheme")
    | some colon =>
      let scheme := match colon with
        | none => []
        | some i => (u.take i).map lowerChar
      let (rest, query, _) := cut '?' (match colon with
        | none => u
        | some i => u.drop (i + 1))
      if rest.head? ≠ some '/' ∧ scheme ≠ [] then
        if validEscapes frag then .ok ⟨⟨scheme⟩, "", ⟨query⟩⟩
        else .error (.text "invalid URL escape")
      else if rest.head? ≠ some '/' ∧ (cut '/' rest).1.contains ':' then
        .error (.text "first path segment in URL cannot contain colon")
      else
        let slashes := rest.take 2 = ['/', '/'] ∧ (scheme ≠ [] ∨ rest.take 3 ≠ ['/', '/', '/'])
        match (if slashes then parseAuthority (cut '/' (rest.drop 2)).1 else .ok "") with
        | .error err => .error err
        | .ok host =>
          let path := if slashes then (rest.drop 2).drop (cut '/' (rest.drop 2)).1.length
            else rest
          if validEscapes path && validEscapes frag then .ok ⟨⟨scheme⟩, host, ⟨query⟩⟩
          else .error (.text "invalid URL escape")

/-- The `sep`-separated pieces of a text. -/
def splitOn (sep : Char) : List Char → List (List Char)
  | [] => [[]]
  | c :: cs =>
    if c = sep then [] :: splitOn sep cs
    else
      match splitOn sep cs with
      | [] => [[c]]
      | x :: xs => (c :: x) :: xs

/-- The bytes of a query component after unescaping: `%XX` is the byte `XX` and `+` is a
space. -/
def unescapeBytes : List Char → Bytes
  | [] => []
  | '%' :: a :: b :: rest =>
    UInt8.ofNat (16 * (unhex a).getD 0 + (unhex b).getD 0) :: unescapeBytes rest
  | '+' :: rest => 32 :: unescapeBytes rest
  | c :: rest => charBytes c ++ unescapeBytes rest

/-- Go `url.QueryUnescape`; `none` is an `EscapeError`. -/
def queryUnescape (s : List Char) : Option String :=
  if validEscapes s then some ⟨utf8Lossy (unescapeBytes s).length (unescapeBytes s)⟩ else none

/-- Go `url.ParseQuery`: the key-value pairs of a raw query in order.  Pieces with a
semicolon, with an empty name or with a bad escape are left out. -/
def parseQuery (query : String) : List (String × String) :=
  (splitOn '&' query.data).filterMap fun piece =>
    if piece.contains ';' || piece = [] then none
    else
      match queryUnescape (cut '=' piece).1, queryUnescape (cut '=' piece).2.1 with
      | some key, some value => some (key, value)
      | _, _ => none

/-- Go `u.Query().Get(key)`: the first value of `key`, or the empty string. -/
def queryGet (u : URL) (key : String) : String :=
  match (parseQuery u.RawQuery).find? fun kv => kv.1 = key with
  | some kv => kv.2
  | none => ""

/-! ### `encoding/base64` -/

/-- Value of a character of the standard Base64 alphabet. -/
def b64Value (c : Char) : Option Nat :=
  if 'A' ≤ c ∧ c ≤ 'Z' then some (c.toNat - 65)
  else if 'a' ≤ c ∧ c ≤ 'z' then some (c.toNat - 71)
  else if '0' ≤ c ∧ c ≤ '9' then some (c.toNat + 4)
  else if c = '+' then some 62
  else if c = '/' then some 63
  else none

/-- Go `base64.CorruptInputError(n)`. -/
def corruptInput (n : Nat) : Error :=
  .text ("illegal base64 data at input byte " ++ toString n)

/-- The bytes of a quantum of `dlen` six-bit values: `dlen - 1` bytes. -/
def quantumBytes (dbuf : List Nat) (dlen : Nat) : Bytes :=
  (beBytes 3 (dbuf.getD 0 0 <<< 18 ||| dbuf.getD 1 0 <<< 12 ||| dbuf.getD 2 0 <<< 6 |||
    dbuf.getD 3 0)).take (dlen - 1)

/-- Skips `\r` and `\n`: the remaining text and its position. -/
def skipNewlines : List Char → Nat → List Char × Nat
  | [], si => ([], si)
  | c :: cs, si => if c = '\n' ∨ c = '\r' then skipNewlines cs (si + 1) else (c :: cs, si)

/-- The end of a quantum after its padding: only line breaks may follow. -/
def b64Finish (rest : List Char) (si : Nat) (dbuf : List Nat) (out : Bytes) :
    Bytes × Option Error :=
  (out ++ quantumBytes dbuf dbuf.length,
    if (skipNewlines rest si).1 = [] then none else some (corruptInput (skipNewlines rest si).2))

/-- The padding of a quantum: `rest` follows the first `=`, which sits at `si - 1`. -/
def b64Padding (rest : List Char) (si : Nat) (dbuf : List Nat) (out : Bytes) :
    Bytes × Option Error :=
  if dbuf.length < 2 then (out, some (corruptInput (si - 1)))
  else if dbuf.length = 2 then
    match skipNewlines rest si with
    | ([], end_) => (out, some (corruptInput end_))
    | (c :: rest2, si2) =>
      if c ≠ '=' then (out, some (corruptInput (si2 - 1)))
      else b64Finish rest2 (si2 + 1) dbuf out
  else b64Finish rest si dbuf out

/-- Go `Encoding.Decode` of `base64.StdEncoding` from position `si`; `dbuf` holds the values
of the quantum being read and `out` the bytes decoded so far. -/
def b64Decode : List Char → Nat → List Nat → Bytes → Bytes × Option Error
  | [], si, dbuf, out =>
    if dbuf = [] then (out, none) else (out, some (corruptInput (si - dbuf.length)))
  | c :: rest, si, dbuf, out =>
    match b64Value c with
    | some v =>
      if dbuf.length = 3 then b64Decode rest (si + 1) [] (out ++ quantumBytes (dbuf ++ [v]) 4)
      else b64Decode rest (si + 1) (dbuf ++ [v]) out
    | none =>
      if c = '\n' ∨ c = '\r' then b64Decode rest (si + 1) dbuf out
      else if c ≠ '=' then (out, some (corruptInput si))
      else b64Padding rest (si + 1) dbuf out

/-- Go `base64.StdEncoding.DecodeString`: the decoded bytes, with an error when the input is
corrupt. -/
def base64Decode (s : String) : Bytes × Option Error := b64Decode s.data 0 [] []

/-! ### Protocol buffers -/

/-- Go `protowire.ConsumeVarint` from byte number `i`: the value and the remaining bytes.  A
varint has at most ten bytes, and the tenth is `0` or `1`. -/
def consumeVarint : Nat → Bytes → Option (Nat × Bytes)
  | _, [] => none
  | i, b :: rest =>
    if i = 9 then (if b.toNat < 2 then some (b.toNat <<< 63, rest) else none)
    else if b.toNat < 0x80 then some (b.toNat <<< (7 * i), rest)
    else (consumeVarint (i + 1) rest).map fun r => (((b.toNat - 0x80) <<< (7 * i)) + r.1, r.2)

/-- Go `protowire.AppendVarint` of a `uint64`; `fuel` bounds the number of bytes. -/
def appendVarint : Nat → Nat → Bytes
  | 0, _ => []
  | fuel + 1, v =>
    if v < 0x80 then [UInt8.ofNat v] else UInt8.ofNat (0x80 + v % 0x80) :: appendVarint fuel (v / 0x80)

/-- Go `protowire.AppendTag`. -/
def appendTag (num typ : Nat) : Bytes := appendVarint 10 (num <<< 3 ||| typ)

/-- Go `int32(v)` of a decoded varint. -/
def toInt32 (v : Nat) : Int :=
  if v % 2 ^ 32 < 2 ^ 31 then (v % 2 ^ 32 : Nat) else (v % 2 ^ 32 : Nat) - 2 ^ 32

/-- Go `uint64(v)` of an `int32` or `int64`, as written to the wire. -/
def ofInt (v : Int) : Nat := (v % 2 ^ 64).toNat

mutual

/-- Go `protowire.ConsumeFieldValue`: the bytes after the value of a field of number `num`
and wire type `typ`, or `none` for malformed data. -/
def skipValue : Nat → Nat → Nat → Bytes → Option Bytes
  | 0, _, _, _ => none
  | fuel + 1, num, typ, b =>
    if typ = 0 then (consumeVarint 0 b).map (·.2)
    else if typ = 1 then (if b.length < 8 then none else some (b.drop 8))
    else if typ = 2 then
      match consumeVarint 0 b with
      | none => none
      | some (m, rest) => if rest.length < m then none else some (rest.drop m)
    else if typ = 3 then skipGroup fuel num b
    else if typ = 5 then (if b.length < 4 then none else some (b.drop 4))
    else none

/-- The fields of a group up to and including its end tag. -/
def skipGroup : Nat → Nat → Bytes → Option Bytes
  | 0, _, _ => none
  | fuel + 1, num, b =>
    match consumeVarint 0 b with
    | none => none
    | some (tag, rest) =>
      if tag >>> 3 < 1 ∨ 2 ^ 31 - 1 < tag >>> 3 then none
      else if tag &&& 7 = 4 then (if tag >>> 3 = num then some rest else none)
      else
        match skipValue fuel (tag >>> 3) (tag &&& 7) rest with
        | none => none
        | some rest2 => skipGroup fuel num rest2

end

/-- Go `protowire.ConsumeBytes`: a length-delimited value and the remaining bytes. -/
def consumeBytes (b : Bytes) : Option (Bytes × Bytes) :=
  match consumeVarint 0 b with
  | none => none
  | some (m, rest) => if rest.length < m then none else some (rest.take m, rest.drop m)

/-- The error of `proto.Unmarshal` for malformed wire data. -/
def errDecode : Error := .text "proto: cannot parse invalid wire-format data"

/-- The error of `proto.Unmarshal` for a string field that is not UTF-8. -/
def errInvalidUTF8 : Error := .text "proto: string field contains invalid UTF-8"

/-- A declared field of `Payload.OtpParameters` with its own wire type: the updated message and
the remaining bytes.  `none` means the field is not a declared one (or has another wire type)
and is kept as an unknown field. -/
def otpField (m : Payload_OtpParameters) (num typ : Nat) (b : Bytes) :
    Option (Except Error (Payload_OtpParameters × Bytes)) :=
  if num = 1 ∧ typ = 2 then
    some (match consumeBytes b with
      | none => .error errDecode
      | some (v, rest) => .ok ({ m with Secret := v }, rest))
  else if (num = 2 ∨ num = 3) ∧ typ = 2 then
    some (match consumeBytes b with
      | none => .error errDecode
      | some (v, rest) =>
        match utf8Decode v.length v with
        | none => .error errInvalidUTF8
        | some cs =>
          .ok (if num = 2 then { m with Name := ⟨cs⟩ } else { m with Issuer := ⟨cs⟩ }, rest))
  else if 4 ≤ num ∧ num ≤ 7 ∧ typ = 0 then
    some (match consumeVarint 0 b with
      | none => .error errDecode
      | some (v, rest) =>
        .ok (if num = 4 then { m with Algorithm := toInt32 v }
          else if num = 5 then { m with Digits := toInt32 v }
          else if num = 6 then { m with Typ := toInt32 v }
          else { m with Counter := v }, rest))
  else none

/-- The field loop of `proto.Unmarshal` at `Payload.OtpParameters`; `fuel` bounds the number
of fields. -/
def unmarshalOtpLoop : Nat → Bytes → Payload_OtpParameters → Except Error Payload_OtpParameters
  | 0, b, m => if b = [] then .ok m else .error errDecode
  | fuel + 1, b, m =>
    if b = [] then .ok m
    else
      match consumeVarint 0 b with
      | none => .error errDecode
      | some (tag, rest) =>
        if tag >>> 3 < 1 ∨ 2 ^ 29 - 1 < tag >>> 3 ∨ tag &&& 7 = 4 then .error errDecode
        else
          match otpField m (tag >>> 3) (tag &&& 7) rest with
          | some (.error err) => .error err
          | some (.ok (m2, rest2)) => unmarshalOtpLoop fuel rest2 m2
          | none =>
            match skipValue (rest.length + 1) (tag >>> 3) (tag &&& 7) rest with
            | none => .error errDecode
            | some rest2 =>
              let raw := appendTag (tag >>> 3) (tag &&& 7) ++ rest.take (rest.length - rest2.length)
              unmarshalOtpLoop fuel rest2 { m with unknownFields := m.unknownFields ++ raw }

/-- Modelled from the spec: `proto.Unmarshal` at the message `Payload.OtpParameters`, whose
descriptor is in the generated file `migration.pb.go` (not among the sources).  Sections 4.1
and 6: tagged fields `secret`, `name`, `issuer`, `algorithm`, `digits`, `type`, `counter`,
numbered 1 to 7 in that order; malformed data is an error and nothing is recovered. -/
def unmarshalOtp (b : Bytes) : Except Error Payload_OtpParameters :=
  unmarshalOtpLoop b.length b ⟨[], "", "", 0, 0, 0, 0, []⟩

/-- A declared field of `Payload` with its own wire type, as `otpField`. -/
def payloadField (m : Payload) (num typ : Nat) (b : Bytes) :
    Option (Except Error (Payload × Bytes)) :=
  if num = 1 ∧ typ = 2 then
    some (match consumeBytes b with
      | none => .error errDecode
      | some (v, rest) =>
        match unmarshalOtp v with
        | .error err => .error err
        | .ok op => .ok ({ m with OtpParameters := m.OtpParameters ++ [op] }, rest))
  else if 2 ≤ num ∧ num ≤ 5 ∧ typ = 0 then
    some (match consumeVarint 0 b with
      | none => .error errDecode
      | some (v, rest) =>
        .ok (if num = 2 then { m with Version := toInt32 v }
          else if num = 3 then { m with BatchSize := toInt32 v }
          else if num = 4 then { m with BatchIndex := toInt32 v }
          else { m with BatchId := toInt32 v }, rest))
  else none

/-- The field loop of `proto.Unmarshal` at `Payload`. -/
def unmarshalPayloadLoop : Nat → Bytes → Payload → Except Error Payload
  | 0, b, m => if b = [] then .ok m else .error errDecode
  | fuel + 1, b, m =>
    if b = [] then .ok m
    else
      match consumeVarint 0 b with
      | none => .error errDecode
      | some (tag, rest) =>
        if tag >>> 3 < 1 ∨ 2 ^ 29 - 1 < tag >>> 3 ∨ tag &&& 7 = 4 then .error errDecode
        else
          match payloadField m (tag >>> 3) (tag &&& 7) rest with
          | some (.error err) => .error err
          | some (.ok (m2, rest2)) => unmarshalPayloadLoop fuel rest2 m2
          | none =>
            match skipValue (rest.length + 1) (tag >>> 3) (tag &&& 7) rest with
            | none => .error errDecode
            | some rest2 =>
              let raw := appendTag (tag >>> 3) (tag &&& 7) ++ rest.take (rest.length - rest2.length)
              unmarshalPayloadLoop fuel rest2 { m with unknownFields := m.unknownFields ++ raw }

/-- Modelled from the spec: `proto.Unmarshal` at the message `Payload` of `migration.pb.go`
(not among the sources).  Sections 4.1 and 6: the repeated record field, then `version`,
`batch_size`, `batch_index`, `batch_id`, numbered 1 to 5 in that order. -/
def unmarshalPayload (b : Bytes) : Except Error Payload :=
  unmarshalPayloadLoop b.length b ⟨[], 0, 0, 0, 0, []⟩

/-- A length-delimited field, left out when empty. -/
def marshalBytesField (num : Nat) (v : Bytes) : Bytes :=
  if v = [] then [] else appendTag num 2 ++ appendVarint 10 v.length ++ v

/-- A varint field, left out when zero. -/
def marshalVarintField (num v : Nat) : Bytes :=
  if v = 0 then [] else appendTag num 0 ++ appendVarint 10 v

/-- Modelled from the spec: `proto.Marshal` at the message `Payload.OtpParameters` of
`migration.pb.go` (not among the sources): the declared fields in the order of their numbers,
those with the zero value left out, then the unknown fields. -/
def marshalOtp (m : Payload_OtpParameters) : Except Error Bytes :=
  .ok (marshalBytesField 1 m.Secret ++ marshalBytesField 2 (stringBytes m.Name) ++
    marshalBytesField 3 (stringBytes m.Issuer) ++ marshalVarintField 4 (ofInt m.Algorithm) ++
    marshalVarintField 5 (ofInt m.Digits) ++ marshalVarintField 6 (ofInt m.Typ) ++
    marshalVarintField 7 m.Counter ++ m.unknownFields)

end Lib

/-- The reference environment: the readings of `net/url`, `encoding/base64` and the protobuf
runtime given in `Lib`. -/
def goEnv : Migration.Env :=
  ⟨Lib.urlParse, Lib.queryGet, Lib.base64Decode, Lib.unmarshalPayload, Lib.unmarshalOtp,
    Lib.marshalOtp⟩

/-! ## The specification's wording -/

open Internal Migration

/-- Section 4.3 step 3: `offset = H[len(H)-1] & 0x0F`. -/
def truncOffset (H : Bytes) : Nat := (H.getD (H.length - 1) 0).toNat &&& 0x0F

/-- Section 4.3 step 3: the four bytes `H[offset..offset+4]` as a big-endian 32-bit value with
the sign bit masked off. -/
def truncValue (H : Bytes) : Nat := beWord ((H.drop (truncOffset H)).take 4) &&& 0x7FFFFFFF

/-- Section 4.3 step 4: `n` in decimal, left-zero-padded to `d` characters. -/
def zeroPadded (d n : Nat) : String :=
  String.mk (List.replicate (d - (Nat.repr n).length) '0') ++ Nat.repr n

/-- Section 4.3 steps 1 and 2 for TOTP: `H = HMAC(algorithm, secret, C)` with
`C = floor((t + 5) / 30)` as eight big-endian bytes. -/
def totpDigest (op : OtpParameterData) (t : Int) : Bytes :=
  (hmacNew op.Algorithm op.Secret).Sum (beBytes 8 ((t + 5) / 30).toNat)

/-- Section 4.2 step 2: every literal space replaced with `+`. -/
def spacesToPlus (s : String) : String := ⟨s.data.map fun c => if c = ' ' then '+' else c⟩

/-- Section 6, the algorithm table: a parameter carries the algorithm of the record code
`code` (`0=unspecified→SHA1, 1=SHA1, 2=SHA256, 3=SHA512, 4=MD5`), both as hash constructor
and as name. -/
def TabledAlgorithm (code : Int) (d : OtpParameterData) : Prop :=
  (code = 0 ∨ code = 1 → d.Algorithm = sha1New ∧ d.AlgorithmName = "SHA1") ∧
    (code = 2 → d.Algorithm = sha256New ∧ d.AlgorithmName = "SHA256") ∧
    (code = 3 → d.Algorithm = sha512New ∧ d.AlgorithmName = "SHA512") ∧
    (code = 4 → d.Algorithm = md5New ∧ d.AlgorithmName = "MD5")

/-- Whether a record passes `proto.Marshal` and `proto.Unmarshal` unchanged, as a record that
was itself produced by `proto.Unmarshal` does. -/
abbrev RoundTrips (env : Env) (q : Payload_OtpParameters) : Prop :=
  (env.marshalOtp q).bind env.unmarshalOtp = .ok q

/-! ## Sample inputs -/

/-- The secret of the RFC 4226 and RFC 6238 test vectors, ASCII `12345678901234567890`. -/
def rfcSecret : Bytes :=
  [49, 50, 51, 52, 53, 54, 55, 56, 57, 48, 49, 50, 51, 52, 53, 54, 55, 56, 57, 48]

/-- A parameter with the RFC secret. -/
def rfcParam (algorithm : Hash) (algorithmName : String) (digits : Int)
    (typ : OtpParameterType) (counter : Nat) : OtpParameterData :=
  ⟨rfcSecret, "alice", "Ex", algorithm, algorithmName, digits, typ, counter⟩

/-- The wire bytes of a record with the RFC secret, name `alice`, issuer `Ex` and the given
algorithm, digit-count and type codes (each below 128 and not zero). -/
def rfcRecord (algorithm digits typ : UInt8) : Bytes :=
  [10, 20] ++ rfcSecret ++ [18, 5, 97, 108, 105, 99, 101, 26, 2, 69, 120, 32, algorithm, 40,
    digits, 48, typ]

/-- Lower-case hexadecimal rendering of a byte string. -/
def hexString (bs : Bytes) : String :=
  ⟨bs.flatMap fun b => [Nat.digitChar (b.toNat / 16), Nat.digitChar (b.toNat % 16)]⟩

/-- A record with secret `k`, name `x` and the undeclared algorithm code 5. -/
def unknownAlgorithmRecord : Payload_OtpParameters := ⟨[107], "x", "", 5, 0, 0, 0, []⟩

/-- The wire bytes of a payload of version 1 that holds `unknownAlgorithmRecord`. -/
def unknownAlgorithmData : Bytes := [10, 8, 10, 1, 107, 18, 1, 120, 32, 5, 16, 1]

/-- A migration link whose data is `unknownAlgorithmData`. -/
def unknownAlgorithmLink : String := "otpauth-migration://offline?data=CggKAWsSAXggBRAB"

/-- A record without any field: no secret, every code unspecified. -/
def emptyRecord : Payload_OtpParameters := ⟨[], "", "", 0, 0, 0, 0, []⟩

/-- A record with secret `k`, SHA256, 8 digits, HOTP. -/
def shortRecord : Payload_OtpParameters := ⟨[107], "", "", 2, 2, 1, 0, []⟩

/-- The wire bytes of a payload of version 1 and batch id 7 that holds `emptyRecord` and
`shortRecord`. -/
def emptySecretData : Bytes := [10, 0, 10, 9, 10, 1, 107, 32, 2, 40, 2, 48, 1, 16, 1, 40, 7]

/-- A migration link whose data is `emptySecretData`, with the padding `=` escaped. -/
def emptySecretLink : String := "otpauth-migration://offline?data=CgAKCQoBayACKAIwARABKAc%3D"

/-! ## Known answers of the hash functions -/

/-- SHA-1 of `abc` (FIPS 180-4 example). -/
theorem sha1_abc : hexString (sha1Sum [97, 98, 99]) = "a9993e364706816aba3e25717850c26c9cd0d89d" := by
  decide!

/-- MD5 of `abc` (RFC 1321 test suite). -/
theorem md5_abc : hexString (md5Sum [97, 98, 99]) = "900150983cd24fb0d6963f7d28e17f72" := by
  decide!

/-- SHA-256 of `abc` (FIPS 180-4 example). -/
theorem sha256_abc :
    hexString (sha256Sum [97, 98, 99]) =
      "ba7816bf8f01cfea414140de5dae2223b00361a396177a9cb410ff61f20015ad" := by
  decide!

/-- SHA-512 of `abc` (FIPS 180-4 example). -/
theorem sha512_abc :
    hexString (sha512Sum [97, 98, 99]) =
      "ddaf35a193617abacc417349ae20413112e6fa4e89a97ea20a9eeee64b55d39a" ++
      "2192992a274fc1a836ba3c23a3feebbd454d4423643ce80e2a9ac94fa54ca49f" := by
  decide!

/-- HMAC-SHA-1 of counter 0 under the RFC secret (RFC 4226, appendix D). -/
theorem hmac_sha1_rfc4226 :
    hexString ((hmacNew sha1New rfcSecret).Sum (beBytes 8 0)) =
      "cc93cf18508d94934c64b65d8ba7667fb7cde4b0" := by
  decide!

/-- HMAC-MD5 and HMAC-SHA-256 of `what do ya want for nothing?` under the key `Jefe`
(RFC 2202 and RFC 4231, test case 2). -/
theorem hmac_jefe :
    hexString ((hmacNew md5New [74, 101, 102, 101]).Sum [119, 104, 97, 116, 32, 100, 111, 32,
      121, 97, 32, 119, 97, 110, 116, 32, 102, 111, 114, 32, 110, 111, 116, 104, 105, 110, 103,
      63]) = "750c783e6ab0b503eaa86e310a5db738" ∧
    hexString ((hmacNew sha256New [74, 101, 102, 101]).Sum [119, 104, 97, 116, 32, 100, 111, 32,
      121, 97, 32, 119, 97, 110, 116, 32, 102, 111, 114, 32, 110, 111, 116, 104, 105, 110, 103,
      63]) = "5bdcc146bf60754e6a042426089575c75a003f089d2739839dec58b964ec3843" := by
  decide!

/-! ## Formatting lemmas -/

theorem ofNat_digit (u : Nat) (h : u < 10) : Char.ofNat (48 + u) = Nat.digitChar u := by
  interval_cases u <;> rfl

/-- The digit loop of `fmt` agrees with the digit loop behind `Nat.repr`. -/
theorem fmtDigits_eq_toDigitsCore (fuel : Nat) :
    ∀ (u : Nat) (acc : List Char) (f2 : Nat), u < 10 ^ (fuel + 1) → u < f2 →
      fmtDigits (fuel + 1) u acc = Nat.toDigitsCore 10 f2 u acc := by
  induction fuel with
  | zero =>
    intro u acc f2 hu hf
    obtain ⟨f, rfl⟩ : ∃ f, f2 = f + 1 := ⟨f2 - 1, by omega⟩
    have h10 : ¬ 10 ≤ u := by omega
    have hd : u / 10 = 0 := by omega
    have hm : u % 10 = u := by omega
    simp [fmtDigits, Nat.toDigitsCore, h10, hd, hm, ofNat_digit u (by omega)]
  | succ k ih =>
    intro u acc f2 hu hf
    obtain ⟨f, rfl⟩ : ∃ f, f2 = f + 1 := ⟨f2 - 1, by omega⟩
    by_cases h10 : 10 ≤ u
    · have hd : u / 10 ≠ 0 := by omega
      have hlt : u / 10 < 10 ^ (k + 1) := by
        rw [pow_succ] at hu
        omega
      have hrec := ih (u / 10) (Char.ofNat (48 + u % 10) :: acc) f hlt (by omega)
      rw [fmtDigits]
      simp only [h10, if_true]
      rw [hrec, Nat.toDigitsCore]
      simp [hd, ofNat_digit (u % 10) (by omega)]
    · have hd : u / 10 = 0 := by omega
      have hm : u % 10 = u := by omega
      simp [fmtDigits, Nat.toDigitsCore, h10, hd, hm, ofNat_digit u (by omega)]

theorem fmtDigits_eq_repr (v : Nat) (h : v < 10 ^ 20) :
    fmtDigits 20 v [] = (Nat.repr v).data := by
  rw [fmtDigits_eq_toDigitsCore 19 v [] (v + 1) h (by omega)]
  rfl

/-- Go `Sprintf("%0*d", d, v)` is the zero-padded decimal rendering of the specification. -/
theorem sprintfZeroPad_eq (d v : Nat) (h : v < 10 ^ 20) :
    sprintfZeroPad d v = zeroPadded d v := by
  unfold sprintfZeroPad zeroPadded
  rw [fmtDigits_eq_repr v h]
  rfl

theorem exec_bind_ret {α β : Type} {x : Exec α} {f : α → Exec β} {b : β}
    (h : x.bind f = .ret b) : ∃ a, x = .ret a ∧ f a = .ret b := by
  cases x with
  | ret a => exact ⟨a, rfl, h⟩
  | panic m => simp [Exec.bind] at h
  | implDependent => simp [Exec.bind] at h

/-- The counter of a TOTP parameter is `floor((t + 5) / 30)`. -/
theorem count_totp (op : OtpParameterData) (t : Int) (hT : op.Typ.IsTotp = true)
    (hH : op.Typ.IsHotp = false) (ht0 : 0 ≤ t) (ht1 : t + 5 < 2 ^ 63) :
    op.count t = .ret ((t + 5) / 30).toNat := by
  unfold OtpParameterData.count toUint64 offset period
  simp only [hH, hT, if_true, Bool.false_eq_true, if_false]
  have h1 : (t + 5) % 2 ^ 64 = t + 5 := Int.emod_eq_of_lt (by omega) (by omega)
  have h2 : (30 : Int) % 2 ^ 64 = 30 := by norm_num
  rw [h1, h2]
  have h30 : Int.toNat 30 = 30 := rfl
  rw [h30]
  congr 1
  omega

/-- The success path of `Generate`: when the counter is `cnt`, the HMAC `H` of its eight
big-endian bytes has `Size()` bytes and holds the truncation window, the code is the
zero-padded rendering of the truncated value modulo `10^d`. -/
theorem generate_of_window (op : OtpParameterData) (t : Int) (cnt : Nat)
    (hT : op.Typ.IsTotp = true) (hc : op.count t = .ret cnt)
    (hd : op.Digits = 6 ∨ op.Digits = 8)
    (hlen : ((hmacNew op.Algorithm op.Secret).Sum (beBytes 8 cnt)).length = op.Algorithm.Size)
    (hwin : truncOffset ((hmacNew op.Algorithm op.Secret).Sum (beBytes 8 cnt)) + 4 ≤
      ((hmacNew op.Algorithm op.Secret).Sum (beBytes 8 cnt)).length) :
    op.Generate t = .ret (zeroPadded op.Digits.toNat
      (truncValue ((hmacNew op.Algorithm op.Secret).Sum (beBytes 8 cnt)) %
        10 ^ op.Digits.toNat), none) := by
  generalize hH : (hmacNew op.Algorithm op.Secret).Sum (beBytes 8 cnt) = H at hlen hwin ⊢
  have hsz : (hmacNew op.Algorithm op.Secret).Size = op.Algorithm.Size := rfl
  have hoff : (H.getD (op.Algorithm.Size - 1) 0).toNat &&& 15 = truncOffset H := by
    unfold truncOffset
    rw [hlen]
  have hbe : beWord (List.take 4 (List.drop (truncOffset H) H)) &&& (2 ^ 31 - 1)
      = truncValue H := rfl
  have hv : truncValue H % 10 ^ op.Digits.toNat < 10 ^ 20 := by
    have hlt : truncValue H < 2 ^ 31 := by
      unfold truncValue
      exact Nat.lt_of_le_of_lt Nat.and_le_right (by norm_num)
    exact Nat.lt_of_le_of_lt (Nat.mod_le _ _) (by omega)
  have hpos : ¬ (op.Algorithm.Size = 0 ∨ H.length ≤ op.Algorithm.Size - 1) := by omega
  have h3 : ¬ H.length < truncOffset H := by omega
  have h4 : ¬ H.length - truncOffset H < 4 := by omega
  unfold OtpParameterData.Generate
  rw [hc]
  simp only [hT, Exec.bind, hsz, hH, hoff, hbe, hpos, h3, h4, if_false, Bool.not_true,
    Bool.false_eq_true]
  rcases hd with hd | hd <;> rw [hd] at hv ⊢ <;>
    simp only [pow10Int] <;> norm_num <;> exact sprintfZeroPad_eq _ _ hv

/-- C1. For a TOTP parameter (`IsTotp`, not `IsHotp`) with 6 or 8 digits, at Unix time `t ≥ 0`
(an `int64` second count), whose HMAC has `Size()` bytes and holds the truncation window
`o..o+4`: `Generate` returns no error, and the code is the zero-padded decimal rendering of
`(bigEndian32(H[o..o+4]) & 0x7FFFFFFF) mod 10^d`, where `H` is the HMAC of the eight
big-endian bytes of `floor((t + 5) / 30)` under the secret and `o = H[len(H)-1] & 0x0F`. -/
theorem totp_generate (op : OtpParameterData) (t : Int)
    (hT : op.Typ.IsTotp = true) (hH : op.Typ.IsHotp = false)
    (hd : op.Digits = 6 ∨ op.Digits = 8) (ht0 : 0 ≤ t) (ht1 : t + 5 < 2 ^ 63)
    (hlen : (totpDigest op t).length = op.Algorithm.Size)
    (hwin : truncOffset (totpDigest op t) + 4 ≤ (totpDigest op t).length) :
    op.Generate t = .ret (zeroPadded op.Digits.toNat
      (truncValue (totpDigest op t) % 10 ^ op.Digits.toNat), none) :=
  generate_of_window op t ((t + 5) / 30).toNat hT (count_totp op t hT hH ht0 ht1) hd hlen hwin

/-- Witness of C1: the RFC secret with SHA1 and 6 digits at Unix time 59, where the digest has
20 bytes, the offset is 4 and the code is `359152`. -/
theorem totp_generate_witness :
    truncOffset (totpDigest (rfcParam sha1New "SHA1" 6 ⟨true, false⟩ 0) 59) = 4 ∧
      (rfcParam sha1New "SHA1" 6 ⟨true, false⟩ 0).Generate 59 =
        .ret (zeroPadded (rfcParam sha1New "SHA1" 6 ⟨true, false⟩ 0).Digits.toNat
          (truncValue (totpDigest (rfcParam sha1New "SHA1" 6 ⟨true, false⟩ 0) 59) %
            10 ^ (rfcParam sha1New "SHA1" 6 ⟨true, false⟩ 0).Digits.toNat), none) ∧
      (rfcParam sha1New "SHA1" 6 ⟨true, false⟩ 0).Generate 59 = .ret ("359152", none) :=
  ⟨by decide!,
    totp_generate (rfcParam sha1New "SHA1" 6 ⟨true, false⟩ 0) 59 rfl rfl (Or.inl rfl)
      (by decide) (by decide) (by decide!) (by decide!),
    by decide!⟩

/-- Counterexample to C2: the HOTP parameter of the RFC 4226 vectors (SHA1, 6 digits, stored
counter 0) gets the placeholder and an error, not the code `287082` of counter 1. -/
theorem hotp_generate_rfc_fails :
    (rfcParam sha1New "SHA1" 6 ⟨false, true⟩ 0).Generate 0 =
        .ret ("failed", some (.text "only totp is supported")) ∧
      ¬ ∃ code, (rfcParam sha1New "SHA1" 6 ⟨false, true⟩ 0).Generate 0 = .ret (code, none) ∧
        code ≠ "failed" := by
  refine ⟨by decide, ?_⟩
  rintro ⟨code, h, -⟩
  have h2 : (rfcParam sha1New "SHA1" 6 ⟨false, true⟩ 0).Generate 0 =
      .ret ("failed", some (.text "only totp is supported")) := by decide
  rw [h2] at h
  simp at h

/-- C2, amended. For every HOTP parameter (`IsHotp`, not `IsTotp`), whatever its stored
counter and the time, `Generate` returns the placeholder `failed` together with the error
`only totp is supported`. -/
theorem hotp_generate_failed (op : OtpParameterData) (now : Int)
    (hty : op.Typ = ⟨false, true⟩) :
    op.Generate now = .ret (codeFailed, some (.text "only totp is supported")) := by
  unfold OtpParameterData.Generate
  simp [hty]

/-- Witness of C2, amended: the RFC 4226 parameter with stored counter 0. -/
theorem hotp_generate_failed_witness :
    (rfcParam sha1New "SHA1" 6 ⟨false, true⟩ 0).Generate 1700000000 =
      .ret ("failed", some (.text "only totp is supported")) :=
  hotp_generate_failed (rfcParam sha1New "SHA1" 6 ⟨false, true⟩ 0) 1700000000 rfl

/-- The pre-increment of `count` survives only next to `IsTotp`: with both flags set the
counter is the stored one plus one, and the RFC 4226 parameter with stored counter 0 gets the
code `287082` of counter 1. -/
theorem count_preincrement (op : OtpParameterData) (now : Int) (hH : op.Typ.IsHotp = true) :
    op.count now = .ret ((op.Counter + 1) % 2 ^ 64) ∧
      (rfcParam sha1New "SHA1" 6 ⟨true, true⟩ 0).Generate now = .ret ("287082", none) := by
  have hc : ∀ q : OtpParameterData, q.Typ.IsHotp = true →
      q.count now = .ret ((q.Counter + 1) % 2 ^ 64) := by
    intro q hq
    unfold OtpParameterData.count
    simp [hq]
  refine ⟨hc op hH, ?_⟩
  have h0 : (rfcParam sha1New "SHA1" 6 ⟨true, true⟩ 0).count 0 = .ret 1 := by decide
  have hgen : (rfcParam sha1New "SHA1" 6 ⟨true, true⟩ 0).Generate now =
      (rfcParam sha1New "SHA1" 6 ⟨true, true⟩ 0).Generate 0 := by
    unfold OtpParameterData.Generate
    rw [hc _ rfl, h0]
    rfl
  rw [hgen]
  decide!

/-- Counterexample to C3: at Unix time 59 the RFC 6238 parameter (SHA1, 8 digits) is in time
step `floor((59 + 5) / 30) = 2`, and the code is not `94287082`. -/
theorem totp_rfc_time_59 :
    (rfcParam sha1New "SHA1" 8 ⟨true, false⟩ 0).Generate 59 ≠ .ret ("94287082", none) := by
  decide!

/-- C3, amended. For the TOTP parameter with the RFC secret, SHA1 and 8 digits, `Generate` at
Unix time 59 returns `37359152` with no error, and it returns `94287082` with no error at
every Unix time from 25 to 54, the times of step `floor((t + 5) / 30) = 1`. -/
theorem totp_rfc_codes (t : Int) (h25 : 25 ≤ t) (h54 : t ≤ 54) :
    (rfcParam sha1New "SHA1" 8 ⟨true, false⟩ 0).Generate 59 = .ret ("37359152", none) ∧
      (rfcParam sha1New "SHA1" 8 ⟨true, false⟩ 0).Generate t = .ret ("94287082", none) := by
  refine ⟨by decide!, ?_⟩
  have hc : (rfcParam sha1New "SHA1" 8 ⟨true, false⟩ 0).count t = .ret 1 := by
    rw [count_totp _ t rfl rfl (by omega) (by omega)]
    congr 1
    omega
  have h1 : (rfcParam sha1New "SHA1" 8 ⟨true, false⟩ 0).count 25 = .ret 1 := by decide
  have hgen : (rfcParam sha1New "SHA1" 8 ⟨true, false⟩ 0).Generate t =
      (rfcParam sha1New "SHA1" 8 ⟨true, false⟩ 0).Generate 25 := by
    unfold OtpParameterData.Generate
    rw [hc, h1]
  rw [hgen]
  decide!

/-- Witness of C3, amended: Unix time 54, five seconds before 59. -/
theorem totp_rfc_codes_witness :
    (rfcParam sha1New "SHA1" 8 ⟨true, false⟩ 0).Generate 54 = .ret ("94287082", none) :=
  (totp_rfc_codes 54 (by decide) (by decide)).2

theorem beBytes_length (n x : Nat) : (beBytes n x).length = n := by
  induction n with
  | zero => rfl
  | succ k ih => simp [beBytes, ih]

theorem leBytes_length (n : Nat) : ∀ x : Nat, (leBytes n x).length = n := by
  induction n with
  | zero => intro x; rfl
  | succ k ih => intro x; simp [leBytes, ih]

theorem flatMap_length_const (f : Nat → Bytes) (k : Nat) (hf : ∀ x, (f x).length = k)
    (l : List Nat) : (l.flatMap f).length = k * l.length := by
  induction l with
  | nil => simp
  | cons a l ih => simp [List.flatMap_cons, hf, ih, Nat.mul_succ, Nat.add_comm]

theorem foldl_block_length (f : List Nat → Bytes → List Nat)
    (hf : ∀ s blk, (f s blk).length = s.length) (blocks : List Bytes) :
    ∀ s : List Nat, (blocks.foldl f s).length = s.length := by
  induction blocks with
  | nil => intro s; rfl
  | cons b bs ih => intro s; simp [List.foldl_cons, ih, hf]

theorem sha1Rounds_length (n : Nat) : ∀ (t : Nat) (w s : List Nat),
    (sha1Rounds n t w s).length = s.length := by
  induction n with
  | zero => intro t w s; simp [sha1Rounds]
  | succ k ih =>
    intro t w s
    unfold sha1Rounds
    split <;> simp_all

theorem md5Rounds_length (n : Nat) : ∀ (i : Nat) (m s : List Nat),
    (md5Rounds n i m s).length = s.length := by
  induction n with
  | zero => intro i m s; simp [md5Rounds]
  | succ k ih =>
    intro i m s
    unfold md5Rounds
    split <;> simp_all

theorem sha2Rounds_length (w n : Nat) : ∀ (ws ks s : List Nat),
    (sha2Rounds w n ws ks s).length = s.length := by
  induction n with
  | zero => intro ws ks s; simp [sha2Rounds]
  | succ k ih =>
    intro ws ks s
    unfold sha2Rounds
    split <;> simp_all

/-- Each of the four hash constructors returns digests of `Size()` bytes, and so does an HMAC
built on it. -/
theorem hmac_digest_length (h : Hash)
    (hk : h = sha1New ∨ h = sha256New ∨ h = sha512New ∨ h = md5New) (key msg : Bytes) :
    ((hmacNew h key).Sum msg).length = h.Size := by
  have h1 : ∀ m, (sha1Sum m).length = 20 := by
    intro m
    unfold sha1Sum
    simp only
    rw [flatMap_length_const _ 4 (beBytes_length 4),
      foldl_block_length sha1Block (by intro s b; simp [sha1Block, sha1Rounds_length])]
    rfl
  have h2 : ∀ m, (sha256Sum m).length = 32 := by
    intro m
    unfold sha256Sum
    simp only
    rw [flatMap_length_const _ 4 (beBytes_length 4),
      foldl_block_length sha256Block (by intro s b; simp [sha256Block, sha2Rounds_length])]
    rfl
  have h3 : ∀ m, (sha512Sum m).length = 64 := by
    intro m
    unfold sha512Sum
    simp only
    rw [flatMap_length_const _ 8 (beBytes_length 8),
      foldl_block_length sha512Block (by intro s b; simp [sha512Block, sha2Rounds_length])]
    rfl
  have h4 : ∀ m, (md5Sum m).length = 16 := by
    intro m
    unfold md5Sum
    simp only
    rw [flatMap_length_const _ 4 (leBytes_length 4),
      foldl_block_length md5Block (by intro s b; simp [md5Block, md5Rounds_length])]
    rfl
  rcases hk with rfl | rfl | rfl | rfl
  · exact h1 _
  · exact h2 _
  · exact h3 _
  · exact h4 _

/-- With a hash of the SHA family the truncation window always fits: a TOTP parameter with
SHA1, SHA256 or SHA512 and 6 or 8 digits gets its code at every time. -/
theorem totp_generate_sha (op : OtpParameterData) (t : Int)
    (hT : op.Typ.IsTotp = true) (hH : op.Typ.IsHotp = false)
    (hd : op.Digits = 6 ∨ op.Digits = 8) (ht0 : 0 ≤ t) (ht1 : t + 5 < 2 ^ 63)
    (hk : op.Algorithm = sha1New ∨ op.Algorithm = sha256New ∨ op.Algorithm = sha512New) :
    op.Generate t = .ret (zeroPadded op.Digits.toNat
      (truncValue (totpDigest op t) % 10 ^ op.Digits.toNat), none) := by
  have hlen : (totpDigest op t).length = op.Algorithm.Size :=
    hmac_digest_length op.Algorithm (by tauto) _ _
  have h20 : 20 ≤ op.Algorithm.Size := by
    rcases hk with h | h | h <;> rw [h] <;> decide
  have ho : truncOffset (totpDigest op t) ≤ 15 := Nat.and_le_right
  have hwin : truncOffset (totpDigest op t) + 4 ≤ (totpDigest op t).length := by omega
  exact generate_of_window op t ((t + 5) / 30).toNat hT (count_totp op t hT hH ht0 ht1) hd hlen
    hwin

/-! ## The decoder -/

theorem hashByAlgorithm_unknown (a : Int) (h : a < 0 ∨ 4 < a) :
    hashByAlgorithm a = .panic ("unknown algorithm: " ++ enumString a) := by
  unfold hashByAlgorithm Payload_OtpParameters_ALGORITHM_UNSPECIFIED
    Payload_OtpParameters_ALGORITHM_SHA1 Payload_OtpParameters_ALGORITHM_SHA256
    Payload_OtpParameters_ALGORITHM_SHA512 Payload_OtpParameters_ALGORITHM_MD5
  have h0 : a ≠ 0 := by omega
  have h1 : a ≠ 1 := by omega
  have h2 : a ≠ 2 := by omega
  have h3 : a ≠ 3 := by omega
  have h4 : a ≠ 4 := by omega
  simp [h0, h1, h2, h3, h4]

/-- The three enum lookups of `FromProtoBytes` succeed exactly on the declared codes. -/
theorem lookups_known (a d : Int) (ha : 0 ≤ a ∧ a ≤ 4) (hd : 0 ≤ d ∧ d ≤ 2) :
    ∃ alg name dig, hashByAlgorithm a = .ret alg ∧ nameByAlgorithm a = .ret name ∧
      countDigits d = .ret dig ∧ (dig = 6 ∨ dig = 8) ∧
      (a = 0 ∨ a = 1 → alg = sha1New ∧ name = "SHA1") ∧
      (a = 2 → alg = sha256New ∧ name = "SHA256") ∧
      (a = 3 → alg = sha512New ∧ name = "SHA512") ∧
      (a = 4 → alg = md5New ∧ name = "MD5") := by
  obtain ⟨ha0, ha4⟩ := ha
  obtain ⟨hd0, hd2⟩ := hd
  interval_cases a <;> interval_cases d <;>
    simp [hashByAlgorithm, nameByAlgorithm, countDigits,
      Payload_OtpParameters_ALGORITHM_UNSPECIFIED, Payload_OtpParameters_ALGORITHM_SHA1,
      Payload_OtpParameters_ALGORITHM_SHA256, Payload_OtpParameters_ALGORITHM_SHA512,
      Payload_OtpParameters_ALGORITHM_MD5, Payload_OtpParameters_DIGIT_COUNT_UNSPECIFIED,
      Payload_OtpParameters_DIGIT_COUNT_SIX, Payload_OtpParameters_DIGIT_COUNT_EIGHT]

/-- What `FromProtoBytes` returns once the record is decoded and the lookups succeed. -/
theorem fromProtoBytes_eq (env : Env) (bytes : Bytes) (r : Payload_OtpParameters)
    (alg : Hash) (name : String) (dig : Int) (hr : env.unmarshalOtp bytes = .ok r)
    (h1 : hashByAlgorithm r.Algorithm = .ret alg) (h2 : nameByAlgorithm r.Algorithm = .ret name)
    (h3 : countDigits r.Digits = .ret dig) :
    Parser.FromProtoBytes env bytes = .ret (.ok
      ⟨⟨r.Secret, r.Name, r.Issuer, alg, name, dig,
          ⟨decide (r.Typ = 2) || decide (r.Typ = 0), decide (r.Typ = 1)⟩, r.Counter⟩, bytes⟩) := by
  unfold Parser.FromProtoBytes
  rw [hr]
  simp only [h1, h2, h3, Exec.bind, Bool.false_or, Payload_OtpParameters_OTP_TYPE_TOTP,
    Payload_OtpParameters_OTP_TYPE_UNSPECIFIED, Payload_OtpParameters_OTP_TYPE_HOTP]

/-- Every parameter `FromProtoBytes` returns comes from a decoded record by the lookups. -/
theorem fromProtoBytes_ok_inv (env : Env) (bytes : Bytes) (p : Internal.OtpParameter)
    (h : Parser.FromProtoBytes env bytes = .ret (.ok p)) :
    ∃ r alg name dig, env.unmarshalOtp bytes = .ok r ∧ hashByAlgorithm r.Algorithm = .ret alg ∧
      nameByAlgorithm r.Algorithm = .ret name ∧ countDigits r.Digits = .ret dig ∧
      p = ⟨⟨r.Secret, r.Name, r.Issuer, alg, name, dig,
          ⟨decide (r.Typ = 2) || decide (r.Typ = 0), decide (r.Typ = 1)⟩, r.Counter⟩, bytes⟩ := by
  cases hr : env.unmarshalOtp bytes with
  | error e =>
    unfold Parser.FromProtoBytes at h
    rw [hr] at h
    simp at h
  | ok r =>
    unfold Parser.FromProtoBytes at h
    rw [hr] at h
    simp only at h
    obtain ⟨alg, h1, h⟩ := exec_bind_ret h
    obtain ⟨name, h2, h⟩ := exec_bind_ret h
    obtain ⟨dig, h3, h⟩ := exec_bind_ret h
    refine ⟨r, alg, name, dig, rfl, h1, h2, h3, ?_⟩
    simp only [Exec.ret.injEq, Except.ok.injEq] at h
    rw [← h]
    simp only [Bool.false_or, Payload_OtpParameters_OTP_TYPE_TOTP,
      Payload_OtpParameters_OTP_TYPE_UNSPECIFIED, Payload_OtpParameters_OTP_TYPE_HOTP]

theorem countDigits_unknown (d : Int) (h : d < 0 ∨ 2 < d) :
    countDigits d = .panic ("unknown digits: " ++ enumString d) := by
  unfold countDigits Payload_OtpParameters_DIGIT_COUNT_UNSPECIFIED
    Payload_OtpParameters_DIGIT_COUNT_SIX Payload_OtpParameters_DIGIT_COUNT_EIGHT
  have h0 : d ≠ 0 := by omega
  have h1 : d ≠ 1 := by omega
  have h2 : d ≠ 2 := by omega
  simp [h0, h1, h2]

/-- A record with an undeclared algorithm code makes `FromProtoBytes` panic. -/
theorem fromProtoBytes_unknown_algorithm (env : Env) (bytes : Bytes)
    (r : Payload_OtpParameters) (hr : env.unmarshalOtp bytes = .ok r)
    (ha : r.Algorithm < 0 ∨ 4 < r.Algorithm) :
    Parser.FromProtoBytes env bytes = .panic ("unknown algorithm: " ++ enumString r.Algorithm) := by
  unfold Parser.FromProtoBytes
  rw [hr]
  simp only [hashByAlgorithm_unknown r.Algorithm ha, Exec.bind]

/-- A record with declared algorithm and digit codes is decoded, field by field. -/
theorem fromProtoBytes_known (env : Env) (bytes : Bytes) (r : Payload_OtpParameters)
    (hr : env.unmarshalOtp bytes = .ok r) (ha : 0 ≤ r.Algorithm ∧ r.Algorithm ≤ 4)
    (hd : 0 ≤ r.Digits ∧ r.Digits ≤ 2) :
    ∃ p, Parser.FromProtoBytes env bytes = .ret (.ok p) ∧ p.Data.Secret = r.Secret ∧
      p.Bytes = bytes ∧ (p.Data.Digits = 6 ∨ p.Data.Digits = 8) ∧
      (r.Algorithm = 0 ∨ r.Algorithm = 1 →
        p.Data.Algorithm = sha1New ∧ p.Data.AlgorithmName = "SHA1") ∧
      (r.Algorithm = 2 → p.Data.Algorithm = sha256New ∧ p.Data.AlgorithmName = "SHA256") ∧
      (r.Algorithm = 3 → p.Data.Algorithm = sha512New ∧ p.Data.AlgorithmName = "SHA512") ∧
      (r.Algorithm = 4 → p.Data.Algorithm = md5New ∧ p.Data.AlgorithmName = "MD5") := by
  obtain ⟨alg, name, dig, h1, h2, h3, hdig, hrest⟩ := lookups_known r.Algorithm r.Digits ha hd
  exact ⟨_, fromProtoBytes_eq env bytes r alg name dig hr h1 h2 h3, rfl, rfl, hdig, hrest⟩

theorem roundTrips_bytes (env : Env) (q : Payload_OtpParameters) (h : RoundTrips env q) :
    ∃ b, env.marshalOtp q = .ok b ∧ env.unmarshalOtp b = .ok q := by
  unfold RoundTrips at h
  cases hm : env.marshalOtp q with
  | error e =>
    rw [hm] at h
    simp [Except.bind] at h
  | ok b =>
    rw [hm] at h
    exact ⟨b, rfl, h⟩

/-- The loop of `Parse` panics as soon as one record has an undeclared algorithm code. -/
theorem parseParams_unknown_algorithm (env : Env) (recs : List Payload_OtpParameters) :
    ∀ params : List Internal.OtpParameter, (∀ q ∈ recs, RoundTrips env q) →
      (∃ r ∈ recs, r.Algorithm < 0 ∨ 4 < r.Algorithm) →
      ∃ msg, Parser.parseParams env recs params = .panic msg := by
  induction recs with
  | nil =>
    intro params _ hbad
    obtain ⟨r, hr, -⟩ := hbad
    simp at hr
  | cons q rest ih =>
    intro params hrt hbad
    obtain ⟨b, hm, hu⟩ := roundTrips_bytes env q (hrt q (List.mem_cons_self _ _))
    unfold Parser.parseParams
    rw [hm]
    simp only
    by_cases ha : q.Algorithm < 0 ∨ 4 < q.Algorithm
    · rw [fromProtoBytes_unknown_algorithm env b q hu ha]
      exact ⟨_, rfl⟩
    · by_cases hd : q.Digits < 0 ∨ 2 < q.Digits
      · have hpanic : Parser.FromProtoBytes env b =
            .panic ("unknown digits: " ++ enumString q.Digits) := by
          obtain ⟨alg, name, dig, h1, h2, -⟩ :=
            lookups_known q.Algorithm 0 (by omega) (by omega)
          unfold Parser.FromProtoBytes
          rw [hu]
          simp only [h1, h2, countDigits_unknown q.Digits hd, Exec.bind]
        rw [hpanic]
        exact ⟨_, rfl⟩
      · obtain ⟨p, hp, -⟩ := fromProtoBytes_known env b q hu (by omega) (by omega)
        rw [hp]
        simp only [Exec.bind]
        apply ih
        · intro x hx
          exact hrt x (List.mem_cons_of_mem _ hx)
        · obtain ⟨r, hr, hrbad⟩ := hbad
          rcases List.mem_cons.1 hr with rfl | hr
          · exact absurd hrbad ha
          · exact ⟨r, hr, hrbad⟩

/-- The loop of `Parse` returns one parameter per record, with the record's secret, when every
record has declared algorithm and digit codes. -/
theorem parseParams_known (env : Env) (recs : List Payload_OtpParameters) :
    ∀ params : List Internal.OtpParameter,
      (∀ q ∈ recs, RoundTrips env q ∧ (0 ≤ q.Algorithm ∧ q.Algorithm ≤ 4) ∧
        (0 ≤ q.Digits ∧ q.Digits ≤ 2)) →
      ∃ ps : List Internal.OtpParameter,
        Parser.parseParams env recs params = .ret (.ok (params ++ ps)) ∧
        ps.map (fun p => p.Data.Secret) = recs.map (fun q => q.Secret) := by
  induction recs with
  | nil =>
    intro params _
    exact ⟨[], by simp [Parser.parseParams], rfl⟩
  | cons q rest ih =>
    intro params hall
    obtain ⟨hq, ha, hd⟩ := hall q (List.mem_cons_self _ _)
    obtain ⟨b, hm, hu⟩ := roundTrips_bytes env q hq
    obtain ⟨p, hp, hsec, -⟩ := fromProtoBytes_known env b q hu ha hd
    obtain ⟨ps, hps, hmap⟩ := ih (params ++ [p]) (fun x hx => hall x (List.mem_cons_of_mem _ hx))
    refine ⟨p :: ps, ?_, ?_⟩
    · unfold Parser.parseParams
      rw [hm]
      simp only
      rw [hp]
      simp only [Exec.bind]
      rw [hps]
      simp
    · simp [hsec, hmap]

/-- The loop of `Parse` gives every record its tabled algorithm: the returned parameters match
the records one by one, each with the algorithm of its record's code. -/
theorem parseParams_known_table (env : Env) (recs : List Payload_OtpParameters) :
    ∀ params : List Internal.OtpParameter,
      (∀ q ∈ recs, RoundTrips env q ∧ (0 ≤ q.Algorithm ∧ q.Algorithm ≤ 4) ∧
        (0 ≤ q.Digits ∧ q.Digits ≤ 2)) →
      ∃ ps : List Internal.OtpParameter,
        Parser.parseParams env recs params = .ret (.ok (params ++ ps)) ∧
        List.Forall₂ (fun p q => TabledAlgorithm q.Algorithm p.Data) ps recs := by
  induction recs with
  | nil =>
    intro params _
    exact ⟨[], by simp [Parser.parseParams], List.Forall₂.nil⟩
  | cons q rest ih =>
    intro params hall
    obtain ⟨hq, ha, hd⟩ := hall q (List.mem_cons_self _ _)
    obtain ⟨b, hm, hu⟩ := roundTrips_bytes env q hq
    obtain ⟨p, hp, -, -, -, htab⟩ := fromProtoBytes_known env b q hu ha hd
    obtain ⟨ps, hps, hrel⟩ := ih (params ++ [p]) (fun x hx => hall x (List.mem_cons_of_mem _ hx))
    refine ⟨p :: ps, ?_, List.Forall₂.cons htab hrel⟩
    unfold Parser.parseParams
    rw [hm]
    simp only
    rw [hp]
    simp only [Exec.bind]
    rw [hps]
    simp

/-- In two lists related one by one, every member of the second has a partner in the
first. -/
theorem forall₂_partner {α β : Type} (R : α → β → Prop) (l₁ : List α) (l₂ : List β)
    (h : List.Forall₂ R l₁ l₂) (b : β) (hb : b ∈ l₂) : ∃ a ∈ l₁, R a b := by
  induction h with
  | nil => simp at hb
  | cons hab _ ih =>
    rcases List.mem_cons.1 hb with rfl | hb
    · exact ⟨_, List.mem_cons_self _ _, hab⟩
    · obtain ⟨a, ha, hr⟩ := ih hb
      exact ⟨a, List.mem_cons_of_mem _ ha, hr⟩

/-- Go `Parse` after a successful `extractData` and `proto.Unmarshal`. -/
theorem parse_of_payload (env : Env) (link : String) (data : Bytes) (pp : Migration.Payload)
    (hx : Parser.extractData env link = (data, none)) (hpp : env.unmarshalPayload data = .ok pp) :
    Parser.Parse env link = (Parser.parseParams env pp.OtpParameters []).bind fun r =>
      match r with
      | .error err => .ret (emptyPayload, some err)
      | .ok params => .ret (⟨params, pp.Version, pp.BatchSize, pp.BatchIndex, pp.BatchId⟩, none) := by
  unfold Parser.Parse
  rw [hx]
  simp only [hpp]

/-! ## Claims about the decoder -/

/-- Counterexample to C4: the two bytes of a record whose only field is algorithm code 5.
`FromProtoBytes` panics; it does not return an error result. -/
theorem from_proto_bytes_algorithm_5 :
    Parser.FromProtoBytes goEnv [32, 5] = .panic "unknown algorithm: 5" ∧
      ¬ ∃ err, Parser.FromProtoBytes goEnv [32, 5] = .ret (.error err) := by
  have h : Parser.FromProtoBytes goEnv [32, 5] = .panic "unknown algorithm: 5" :=
    fromProtoBytes_unknown_algorithm goEnv [32, 5] ⟨[], "", "", 5, 0, 0, 0, []⟩ (by decide!)
      (by decide)
  refine ⟨h, ?_⟩
  rintro ⟨err, herr⟩
  rw [h] at herr
  simp at herr

/-- C4, amended. For every OTP record whose algorithm code lies outside 0..4, `FromProtoBytes`
of its bytes panics with `unknown algorithm: <code>` and returns neither an error nor a
parameter, and `Parse` of a link that contains the record (all records passing the protobuf
round trip) panics as well.  For a record with algorithm code 0, 1, 2, 3 or 4 and a declared
digit code, decoding succeeds and the algorithm is SHA1, SHA1, SHA256, SHA512 or MD5: so for
`FromProtoBytes` of its bytes, and so for `Parse` of a link that contains it, all of whose
records pass the round trip and carry declared codes, which returns no error and, record by
record, a parameter with the tabled algorithm. -/
theorem from_proto_bytes_algorithm (env : Env) (bytes : Bytes) (r : Payload_OtpParameters)
    (hr : env.unmarshalOtp bytes = .ok r) :
    ((r.Algorithm < 0 ∨ 4 < r.Algorithm) →
      Parser.FromProtoBytes env bytes =
          .panic ("unknown algorithm: " ++ enumString r.Algorithm) ∧
        ∀ (link : String) (data : Bytes) (pp : Migration.Payload),
          Parser.extractData env link = (data, none) → env.unmarshalPayload data = .ok pp →
          (∀ q ∈ pp.OtpParameters, RoundTrips env q) → r ∈ pp.OtpParameters →
          ∃ msg, Parser.Parse env link = .panic msg) ∧
    ((0 ≤ r.Algorithm ∧ r.Algorithm ≤ 4) → (0 ≤ r.Digits ∧ r.Digits ≤ 2) →
      (∃ p, Parser.FromProtoBytes env bytes = .ret (.ok p) ∧
        (r.Algorithm = 0 ∨ r.Algorithm = 1 →
          p.Data.Algorithm = sha1New ∧ p.Data.AlgorithmName = "SHA1") ∧
        (r.Algorithm = 2 → p.Data.Algorithm = sha256New ∧ p.Data.AlgorithmName = "SHA256") ∧
        (r.Algorithm = 3 → p.Data.Algorithm = sha512New ∧ p.Data.AlgorithmName = "SHA512") ∧
        (r.Algorithm = 4 → p.Data.Algorithm = md5New ∧ p.Data.AlgorithmName = "MD5")) ∧
      ∀ (link : String) (data : Bytes) (pp : Migration.Payload),
        Parser.extractData env link = (data, none) → env.unmarshalPayload data = .ok pp →
        (∀ q ∈ pp.OtpParameters, RoundTrips env q ∧ (0 ≤ q.Algorithm ∧ q.Algorithm ≤ 4) ∧
          (0 ≤ q.Digits ∧ q.Digits ≤ 2)) →
        r ∈ pp.OtpParameters →
        ∃ payload, Parser.Parse env link = .ret (payload, none) ∧
          List.Forall₂ (fun p q => TabledAlgorithm q.Algorithm p.Data)
            payload.OtpParameters pp.OtpParameters ∧
          ∃ p ∈ payload.OtpParameters, TabledAlgorithm r.Algorithm p.Data) := by
  constructor
  · intro ha
    refine ⟨fromProtoBytes_unknown_algorithm env bytes r hr ha, ?_⟩
    intro link data pp hx hpp hrt hmem
    obtain ⟨msg, hmsg⟩ := parseParams_unknown_algorithm env pp.OtpParameters [] hrt ⟨r, hmem, ha⟩
    rw [parse_of_payload env link data pp hx hpp, hmsg]
    exact ⟨msg, rfl⟩
  · intro ha hd
    constructor
    · obtain ⟨p, hp, -, -, -, hrest⟩ := fromProtoBytes_known env bytes r hr ha hd
      exact ⟨p, hp, hrest⟩
    · intro link data pp hx hpp hall hmem
      obtain ⟨ps, hps, hrel⟩ := parseParams_known_table env pp.OtpParameters [] hall
      refine ⟨⟨ps, pp.Version, pp.BatchSize, pp.BatchIndex, pp.BatchId⟩, ?_, hrel,
        forall₂_partner _ ps pp.OtpParameters hrel r hmem⟩
      rw [parse_of_payload env link data pp hx hpp, hps]
      rfl

/-- Witness of C4, amended: the record with algorithm code 5 and a link that holds it; the
record of the RFC secret with algorithm code 4 (MD5); and the record with algorithm code 2
(SHA256) inside a link of two records. -/
theorem from_proto_bytes_algorithm_witness :
    (Parser.FromProtoBytes goEnv [10, 1, 107, 18, 1, 120, 32, 5] =
        .panic ("unknown algorithm: " ++ enumString unknownAlgorithmRecord.Algorithm) ∧
      ∃ msg, Parser.Parse goEnv unknownAlgorithmLink = .panic msg) ∧
    (∃ p, Parser.FromProtoBytes goEnv (rfcRecord 4 2 2) = .ret (.ok p) ∧
      p.Data.Algorithm = md5New ∧ p.Data.AlgorithmName = "MD5") ∧
    ∃ payload, Parser.Parse goEnv emptySecretLink = .ret (payload, none) ∧
      List.Forall₂ (fun p q => TabledAlgorithm q.Algorithm p.Data)
        payload.OtpParameters [emptyRecord, shortRecord] ∧
      ∃ p ∈ payload.OtpParameters,
        p.Data.Algorithm = sha256New ∧ p.Data.AlgorithmName = "SHA256" :=
  ⟨⟨((from_proto_bytes_algorithm goEnv [10, 1, 107, 18, 1, 120, 32, 5] unknownAlgorithmRecord
        (by decide!)).1 (by decide)).1,
      ((from_proto_bytes_algorithm goEnv [10, 1, 107, 18, 1, 120, 32, 5] unknownAlgorithmRecord
        (by decide!)).1 (by decide)).2 unknownAlgorithmLink unknownAlgorithmData
        ⟨[unknownAlgorithmRecord], 1, 0, 0, 0, []⟩ (by decide!) (by decide!) (by decide!)
        (by decide)⟩,
    (((from_proto_bytes_algorithm goEnv (rfcRecord 4 2 2)
        ⟨rfcSecret, "alice", "Ex", 4, 2, 2, 0, []⟩ (by decide!)).2 (by decide)
          (by decide)).1.imp
      fun _ h => ⟨h.1, h.2.2.2.2 rfl⟩),
    ((((from_proto_bytes_algorithm goEnv [10, 1, 107, 32, 2, 40, 2, 48, 1] shortRecord
        (by decide!)).2 (by decide) (by decide)).2 emptySecretLink emptySecretData
        ⟨[emptyRecord, shortRecord], 1, 0, 0, 7, []⟩ (by decide!) (by decide!) (by decide!)
        (by decide)).imp
      fun _ h => ⟨h.1, h.2.1, h.2.2.imp fun _ hp => ⟨hp.1, hp.2.2.1 rfl⟩⟩)⟩

/-- Counterexample to C5: the two bytes of a record whose only field is type code 3.
`FromProtoBytes` decodes it, and the parameter is neither TOTP nor HOTP. -/
theorem from_proto_bytes_type_3 :
    ∃ p, Parser.FromProtoBytes goEnv [48, 3] = .ret (.ok p) ∧
      p.Data.Typ.IsTotp = false ∧ p.Data.Typ.IsHotp = false :=
  ⟨_, fromProtoBytes_eq goEnv [48, 3] ⟨[], "", "", 0, 0, 3, 0, []⟩ sha1New "SHA1" 6 (by decide!)
    rfl rfl rfl, rfl, rfl⟩

/-- C5, amended. For every record that `FromProtoBytes` decodes successfully, type codes 0
(unspecified) and 2 give TOTP (`IsTotp` only), type code 1 gives HOTP (`IsHotp` only), and
every other type code gives a parameter with neither flag; so exactly one of `IsTotp`,
`IsHotp` is true exactly when the type code is 0, 1 or 2. -/
theorem from_proto_bytes_type (env : Env) (bytes : Bytes) (p : Internal.OtpParameter)
    (h : Parser.FromProtoBytes env bytes = .ret (.ok p)) :
    ∃ r, env.unmarshalOtp bytes = .ok r ∧
      (r.Typ = 0 ∨ r.Typ = 2 → p.Data.Typ = ⟨true, false⟩) ∧
      (r.Typ = 1 → p.Data.Typ = ⟨false, true⟩) ∧
      (r.Typ < 0 ∨ 2 < r.Typ → p.Data.Typ = ⟨false, false⟩) := by
  obtain ⟨r, alg, name, dig, hr, -, -, -, rfl⟩ := fromProtoBytes_ok_inv env bytes p h
  refine ⟨r, hr, ?_, ?_, ?_⟩
  · rintro (h0 | h2)
    · simp [h0]
    · simp [h2]
  · intro h1
    simp [h1]
  · intro hout
    have h0 : r.Typ ≠ 0 := by omega
    have h1 : r.Typ ≠ 1 := by omega
    have h2 : r.Typ ≠ 2 := by omega
    simp [h0, h1, h2]

/-- Witness of C5, amended: the record of the RFC secret with type code 1 (HOTP). -/
theorem from_proto_bytes_type_witness :
    ∃ r, goEnv.unmarshalOtp (rfcRecord 1 1 1) = .ok r ∧
      (r.Typ = 0 ∨ r.Typ = 2 →
        (⟨rfcParam sha1New "SHA1" 6 ⟨false, true⟩ 0, rfcRecord 1 1 1⟩ :
          Internal.OtpParameter).Data.Typ = ⟨true, false⟩) ∧
      (r.Typ = 1 →
        (⟨rfcParam sha1New "SHA1" 6 ⟨false, true⟩ 0, rfcRecord 1 1 1⟩ :
          Internal.OtpParameter).Data.Typ = ⟨false, true⟩) ∧
      (r.Typ < 0 ∨ 2 < r.Typ →
        (⟨rfcParam sha1New "SHA1" 6 ⟨false, true⟩ 0, rfcRecord 1 1 1⟩ :
          Internal.OtpParameter).Data.Typ = ⟨false, false⟩) :=
  from_proto_bytes_type goEnv (rfcRecord 1 1 1)
    ⟨rfcParam sha1New "SHA1" 6 ⟨false, true⟩ 0, rfcRecord 1 1 1⟩
    (fromProtoBytes_eq goEnv (rfcRecord 1 1 1) ⟨rfcSecret, "alice", "Ex", 1, 1, 1, 0, []⟩
      sha1New "SHA1" 6 (by decide!) rfl rfl rfl)

/-- Counterexample to C6: the empty byte string, a record with no secret field.
`FromProtoBytes` returns a parameter with an empty secret and no error. -/
theorem from_proto_bytes_no_secret :
    ∃ p, Parser.FromProtoBytes goEnv [] = .ret (.ok p) ∧ p.Data.Secret = [] :=
  ⟨_, fromProtoBytes_eq goEnv [] emptyRecord sha1New "SHA1" 6 (by decide!) rfl rfl rfl, rfl⟩

/-- C6, amended. For every OTP record whose secret has length zero and whose algorithm and
digit codes are declared, `FromProtoBytes` returns no error and a parameter with an empty
secret; and `Parse` of a link that contains it, all of whose records pass the protobuf round
trip and carry declared codes, returns no error and one parameter per record with the
secret of that record, the empty one included.  The decoder checks no secret length. -/
theorem from_proto_bytes_empty_secret (env : Env) (bytes : Bytes) (r : Payload_OtpParameters)
    (hr : env.unmarshalOtp bytes = .ok r) (ha : 0 ≤ r.Algorithm ∧ r.Algorithm ≤ 4)
    (hd : 0 ≤ r.Digits ∧ r.Digits ≤ 2) (hs : r.Secret.length = 0) :
    (∃ p, Parser.FromProtoBytes env bytes = .ret (.ok p) ∧ p.Data.Secret = []) ∧
      ∀ (link : String) (data : Bytes) (pp : Migration.Payload),
        Parser.extractData env link = (data, none) → env.unmarshalPayload data = .ok pp →
        (∀ q ∈ pp.OtpParameters, RoundTrips env q ∧ (0 ≤ q.Algorithm ∧ q.Algorithm ≤ 4) ∧
          (0 ≤ q.Digits ∧ q.Digits ≤ 2)) →
        r ∈ pp.OtpParameters →
        ∃ payload, Parser.Parse env link = .ret (payload, none) ∧
          payload.OtpParameters.map (fun p => p.Data.Secret) =
            pp.OtpParameters.map (fun q => q.Secret) ∧
          ∃ p ∈ payload.OtpParameters, p.Data.Secret = [] := by
  have hnil : r.Secret = [] := List.length_eq_zero.1 hs
  constructor
  · obtain ⟨p, hp, hsec, -⟩ := fromProtoBytes_known env bytes r hr ha hd
    exact ⟨p, hp, by rw [hsec, hnil]⟩
  · intro link data pp hx hpp hall hmem
    obtain ⟨ps, hps, hmap⟩ := parseParams_known env pp.OtpParameters [] hall
    refine ⟨⟨ps, pp.Version, pp.BatchSize, pp.BatchIndex, pp.BatchId⟩, ?_, hmap, ?_⟩
    · rw [parse_of_payload env link data pp hx hpp, hps]
      rfl
    · have hin : r.Secret ∈ ps.map (fun p => p.Data.Secret) := by
        rw [hmap]
        exact List.mem_map_of_mem _ hmem
      obtain ⟨p, hp, hpsec⟩ := List.mem_map.1 hin
      exact ⟨p, hp, by rw [hpsec, hnil]⟩

/-- Witness of C6, amended: the empty record and a link that holds it next to a second
record. -/
theorem from_proto_bytes_empty_secret_witness :
    (∃ p, Parser.FromProtoBytes goEnv [] = .ret (.ok p) ∧ p.Data.Secret = []) ∧
      ∃ payload, Parser.Parse goEnv emptySecretLink = .ret (payload, none) ∧
        payload.OtpParameters.map (fun p => p.Data.Secret) = [[], [107]] ∧
        ∃ p ∈ payload.OtpParameters, p.Data.Secret = [] :=
  ⟨(from_proto_bytes_empty_secret goEnv [] emptyRecord (by decide!) (by decide) (by decide)
      rfl).1,
    (from_proto_bytes_empty_secret goEnv [] emptyRecord (by decide!) (by decide) (by decide)
      rfl).2 emptySecretLink emptySecretData ⟨[emptyRecord, shortRecord], 1, 0, 0, 7, []⟩
      (by decide!) (by decide!) (by decide!) (by decide)⟩

/-- C7. For every link that parses as a URI whose scheme is not `otpauth-migration` or whose
host is not `offline`, `Parse` returns an error and the empty payload (no parameters, all
batch metadata zero), whatever the `data` query parameter holds: the error names the scheme
when the scheme is wrong, and the host otherwise. -/
theorem parse_rejects_foreign_link (env : Env) (link : String) (u : URL)
    (hu : env.urlParse link = .ok u)
    (hbad : u.Scheme ≠ "otpauth-migration" ∨ u.Host ≠ "offline") :
    Parser.Parse env link = .ret (⟨[], 0, 0, 0, 0⟩,
      some (.wrap "failed to extract data from link"
        (if u.Scheme ≠ "otpauth-migration" then .unknownScheme u.Scheme "otpauth-migration"
          else .unknownHost u.Host))) := by
  unfold Parser.Parse Parser.extractData
  rw [hu]
  by_cases hs : u.Scheme = "otpauth-migration"
  · have hh : u.Host ≠ "offline" := by
      rcases hbad with h | h
      · exact absurd hs h
      · exact h
    simp [hs, hh, emptyPayload]
  · simp [hs, emptyPayload]

/-- Witness of C7: an `http` link with well-formed migration data. -/
theorem parse_rejects_foreign_link_witness :
    goEnv.urlParse "http://offline?data=CggKAWsSAXggBRAB" =
        .ok ⟨"http", "offline", "data=CggKAWsSAXggBRAB"⟩ ∧
      Parser.Parse goEnv "http://offline?data=CggKAWsSAXggBRAB" = .ret (⟨[], 0, 0, 0, 0⟩,
        some (.wrap "failed to extract data from link"
          (if (⟨"http", "offline", "data=CggKAWsSAXggBRAB"⟩ : URL).Scheme ≠ "otpauth-migration"
            then .unknownScheme (⟨"http", "offline", "data=CggKAWsSAXggBRAB"⟩ : URL).Scheme
              "otpauth-migration"
            else .unknownHost (⟨"http", "offline", "data=CggKAWsSAXggBRAB"⟩ : URL).Host))) :=
  ⟨by decide!,
    parse_rejects_foreign_link goEnv "http://offline?data=CggKAWsSAXggBRAB"
      ⟨"http", "offline", "data=CggKAWsSAXggBRAB"⟩ (by decide!) (Or.inl (by decide))⟩

/-- C8. For two links with the right scheme and host, one with the data value `s` and one
with `s` after every literal space is replaced by `+`, `extractData` gives the same result,
decoded bytes and error alike: it is the standard Base64 decoding of the replaced value. -/
theorem extractData_spaces_as_plus (env : Env) (link1 link2 : String) (u1 u2 : URL)
    (h1 : env.urlParse link1 = .ok u1) (h2 : env.urlParse link2 = .ok u2)
    (hs1 : u1.Scheme = "otpauth-migration") (hh1 : u1.Host = "offline")
    (hs2 : u2.Scheme = "otpauth-migration") (hh2 : u2.Host = "offline")
    (hq : env.queryGet u2 "data" = spacesToPlus (env.queryGet u1 "data")) :
    Parser.extractData env link1 = Parser.extractData env link2 ∧
      Parser.extractData env link1 = env.base64Decode (spacesToPlus (env.queryGet u1 "data")) := by
  have hidem : ∀ s : String, spacesToPlus (spacesToPlus s) = spacesToPlus s := by
    intro s
    unfold spacesToPlus
    congr 1
    simp only [List.map_map]
    apply List.map_congr_left
    intro c _
    by_cases hc : c = ' '
    · simp [hc]
    · simp [hc]
  have e1 : Parser.extractData env link1 =
      env.base64Decode (spacesToPlus (env.queryGet u1 "data")) := by
    unfold Parser.extractData
    rw [h1]
    simp [hs1, hh1, spacesToPlus]
  have e2 : Parser.extractData env link2 =
      env.base64Decode (spacesToPlus (env.queryGet u2 "data")) := by
    unfold Parser.extractData
    rw [h2]
    simp [hs2, hh2, spacesToPlus]
  refine ⟨?_, e1⟩
  rw [e1, e2, hq, hidem]

/-- Witness of C8: a link whose Base64 data ends in `+`, which the query decoding turns into a
space, and the same link with the `+` escaped as `%2B`. -/
theorem extractData_spaces_as_plus_witness :
    goEnv.queryGet ⟨"otpauth-migration", "offline", "data=CgIKABA+"⟩ "data" = "CgIKABA " ∧
      (Parser.extractData goEnv "otpauth-migration://offline?data=CgIKABA+" =
          Parser.extractData goEnv "otpauth-migration://offline?data=CgIKABA%2B" ∧
        Parser.extractData goEnv "otpauth-migration://offline?data=CgIKABA+" =
          goEnv.base64Decode (spacesToPlus
            (goEnv.queryGet ⟨"otpauth-migration", "offline", "data=CgIKABA+"⟩ "data"))) ∧
      Parser.extractData goEnv "otpauth-migration://offline?data=CgIKABA+" =
        ([10, 2, 10, 0, 16, 62], none) :=
  ⟨by decide!,
    extractData_spaces_as_plus goEnv "otpauth-migration://offline?data=CgIKABA+"
      "otpauth-migration://offline?data=CgIKABA%2B"
      ⟨"otpauth-migration", "offline", "data=CgIKABA+"⟩
      ⟨"otpauth-migration", "offline", "data=CgIKABA%2B"⟩
      (by decide!) (by decide!) rfl rfl rfl rfl (by decide!),
    by decide!⟩

/-! ## The truncation window under MD5 -/

/-- C10, failing input. The record of the RFC secret with algorithm code 4 (MD5) decodes to a
TOTP parameter; at Unix time 1700000090 its HMAC has 16 bytes and ends in `0xce`, so the offset
is 14, the four-byte read leaves the digest, and `Generate` panics instead of returning a code
or the placeholder. -/
theorem md5_generate_panics :
    ∃ p, Parser.FromProtoBytes goEnv (rfcRecord 4 1 2) = .ret (.ok p) ∧
      p.Data.Typ = ⟨true, false⟩ ∧
      totpDigest p.Data 1700000090 =
        [0xb4, 0x22, 0x6b, 0x0f, 0xcd, 0xb0, 0xc6, 0x42, 0xb0, 0x88, 0xbb, 0xf4, 0x12, 0x8e,
          0xf5, 0xce] ∧
      p.Data.Generate 1700000090 = .panic "index out of range" :=
  ⟨_, fromProtoBytes_eq goEnv (rfcRecord 4 1 2) ⟨rfcSecret, "alice", "Ex", 4, 1, 2, 0, []⟩
    md5New "MD5" 6 (by decide!) rfl rfl rfl, rfl, by decide!, by decide!⟩

end Ihate2fa
